import Mathlib

/-!
# SatisfactoryModBootstrapper: `src/controller.cpp`

A shallow embedding of the bootstrap controller.  Every function of
`controller.cpp` becomes a Lean function over an explicit process state
(`State`) and an explicit description of the surrounding platform (`Env`).

* Pointers that may be null (`HMODULE`, `FUNCTION_PTR`, `DllLoader*`) are `Option`s.
* `exit(1)` is the outcome `exited 1`; a second `lock` of the non-recursive
  `setupHookMutex` is the outcome `deadlock`; dereferencing a null `dllLoader`
  is the outcome `crash`.
* The `while` loop of `resolveGameRootDir` has no bound in the source, so it is
  embedded with a fuel counter: `none` means that the loop is still running when
  the fuel is used up.
* Calls into the platform and into loaded modules are recorded, in order, in
  `State.events`.
-/

namespace Bootstrapper

/-! ## Data model -/

/-- Module handle (`HMODULE`); the null handle is `Option.none`. -/
abbrev HMODULE := Nat

/-- Address of a function (`FUNCTION_PTR`); the null pointer is `Option.none`. -/
abbrev FUNCTION_PTR := Nat

/-- An absolute `std::filesystem::path`: the components below the filesystem root,
outermost first.  The root itself is `[]`. -/
abbrev Path := List String

/-- The method `path::parent_path()`: drops the last component; the parent of the root is the
root. -/
def parent_path (p : Path) : Path := p.dropLast

/-- Source line 12: `#define GAME_MODULE_NAME "FactoryGame-Win64-Shipping.exe"`. -/
def GAME_MODULE_NAME : String := "FactoryGame-Win64-Shipping.exe"

/-- Source line 16: `bootstrapperVersion = L"2.0.4"`. -/
def bootstrapperVersion : String := "2.0.4"

/-- The functions of `controller.cpp` whose addresses are handed to loader modules. -/
inductive Export where
  | EXPORTS_IsLoaderModuleLoaded
  | EXPORTS_LoadModule
  | EXPORTS_GetModuleProcAddress
  | EXPORTS_ResolveModuleSymbol
  | EXPORTS_FlushDebugSymbols
  deriving DecidableEq, Repr

/-- Modelled from the spec: the declaration of `struct BootstrapAccessors` is in `exports.h`,
which is not among the sources.  The fields are the seven of spec section 6, in the order
given there, which is the order of the brace initialiser at source lines 67-75. -/
structure BootstrapAccessors where
  gameRootDirectory : Path
  LoadModule : Export
  GetModuleProcAddress : Export
  IsLoaderModuleLoaded : Export
  ResolveModuleSymbol : Export
  version : String
  FlushDebugSymbols : Export
  deriving DecidableEq, Repr

/-- The object built by `SymbolResolver(gameModule, diaDllHandle, false)`: the constructor
arguments. -/
structure SymbolResolver where
  gameModule : HMODULE
  diaDllHandle : HMODULE
  strict : Bool
  deriving DecidableEq, Repr

/-- The object built by `DllLoader(resolver)`. -/
structure DllLoader where
  resolver : SymbolResolver
  deriving DecidableEq, Repr

/-- What the code behind a module's `BootstrapModule` may do with this translation unit:
call the exported hook again, or call the load-module capability it was given. -/
inductive ModAction where
  | callSetupExecutableHook (selfModuleHandle : HMODULE)
  | callLoadModule (moduleName : String) (filePath : Path)
  deriving DecidableEq, Repr

/-- Calls that leave this translation unit, in the order they are made. -/
inductive Event where
  | initializeLogging
  | log (line : String)
  | loadLibraryW (filePath : Path)
  | newSymbolResolver (gameModule diaDllHandle : HMODULE) (strict : Bool)
  | newDllLoader (resolver : SymbolResolver)
  | createDirectories (directoryPath : Path)
  | loadModule (filePath : Path)
  | invoke (moduleName : String) (bootstrapFunc : FUNCTION_PTR) (accessors : BootstrapAccessors)
  deriving DecidableEq, Repr

/-- One element yielded by `std::filesystem::directory_iterator`. -/
structure DirEntry where
  filename : String
  is_regular_file : Bool
  deriving DecidableEq, Repr

/-- The platform around the controller. -/
structure Env where
  /-- The call `GetModuleHandleA(name)`. -/
  GetModuleHandleA : String → Option HMODULE
  /-- The call `GetModuleFileNameW(handle, ..)`; with a null handle Windows answers with the path of
  the executable of the current process. -/
  GetModuleFileNameW : Option HMODULE → Path
  /-- The call `std::filesystem::exists(path)`. -/
  fsExists : Path → Bool
  /-- The call `LoadLibraryW(path)`. -/
  LoadLibraryW : Path → Option HMODULE
  /-- What `directory_iterator(dir)` yields, in the order it yields it. -/
  directory_iterator : Path → List DirEntry
  /-- The method `DllLoader::LoadModule` (declared in `DllLoader.h`). -/
  LoadModule : Path → Option HMODULE
  /-- The call `GetProcAddress(module, name)`. -/
  GetProcAddress : HMODULE → String → Option FUNCTION_PTR
  /-- The behaviour of the code at a function address when called with a capability table. -/
  code : FUNCTION_PTR → BootstrapAccessors → List ModAction
  /-- The text returned by `GetLastErrorAsString()`. -/
  GetLastErrorAsString : String

/-- The mutable state of the translation unit, with the record of outside calls. -/
structure State where
  /-- Source line 82: `static volatile bool hookAlreadySetup`. -/
  hookAlreadySetup : Bool
  /-- Source line 81: `static std::mutex setupHookMutex`; `true` while it is held. -/
  setupHookMutex : Bool
  /-- Source line 14: `static DllLoader* dllLoader`. -/
  dllLoader : Option DllLoader
  events : List Event
  deriving DecidableEq, Repr

/-- The state at process start. -/
def State.initial : State :=
  { hookAlreadySetup := false, setupHookMutex := false, dllLoader := none, events := [] }

/-- Record outside calls. -/
def State.addEvents (s : State) (evs : List Event) : State :=
  { s with events := s.events ++ evs }

/-- Record an outside call. -/
def State.emit (s : State) (e : Event) : State :=
  s.addEvents [e]

/-- Write one line to `Logging::logFile`. -/
def State.logLine (s : State) (line : String) : State :=
  s.emit (Event.log line)

/-- How a call ends. -/
inductive Result (α : Type) where
  | ok (value : α) (s : State)
  | exited (code : Nat) (s : State)
  | deadlock (s : State)
  | crash (s : State)
  | timeout
  deriving DecidableEq, Repr

/-- How a call to `setupExecutableHook` ends. -/
abbrev Outcome := Result Unit

/-- The state a call ended in, if it ended. -/
def Result.state? {α : Type} : Result α → Option State
  | .ok _ s => some s
  | .exited _ s => some s
  | .deadlock s => some s
  | .crash s => some s
  | .timeout => none

/-- Lexicographic comparison of two character sequences, the shorter first on a tie. -/
def charsLess : List Char → List Char → Bool
  | _, [] => false
  | [], _ :: _ => true
  | a :: as, b :: bs =>
    if a.toNat < b.toNat then true
    else if b.toNat < a.toNat then false
    else charsLess as bs

/-- The comparison `std::less<std::string>`, the key order of the map. -/
def stringLess (a b : String) : Bool := charsLess a.toList b.toList

/-- The type `std::map<std::string, HMODULE>`: the pairs in ascending key order. -/
abbrev Registry := List (String × HMODULE)

/-- The method `std::map::insert`: puts the pair at its place in key order; a key that is already
present keeps its old value. -/
def mapInsert (k : String) (v : HMODULE) : Registry → Registry
  | [] => [(k, v)]
  | (k', v') :: rest =>
    if stringLess k k' then (k, v) :: (k', v') :: rest
    else if stringLess k' k then (k', v') :: mapInsert k v rest
    else (k', v') :: rest

/-- The method `path::extension()` on a file name: the part from the rightmost period on, the period
included; empty for `.` and `..`, for a name without a period, and for a name whose only
period is its first character. -/
def extension (filename : String) : String :=
  let cs := filename.toList
  if cs = ['.'] ∨ cs = ['.', '.'] then ""
  else
    let suffix := (cs.reverse.takeWhile (fun c => c != '.')).reverse
    if cs.contains '.' ∧ 1 < cs.length - suffix.length then String.mk ('.' :: suffix) else ""

/-- The text `operator<<` writes for a path or a file name: the name between double quotes. -/
def quoted (s : String) : String := "\"" ++ s ++ "\""

/-- The text of a path, as `path::string()` gives it: the components after `/`. -/
def pathString (p : Path) : String := "/" ++ "/".intercalate p

/-! ## `EXPORTS_LoadModule` (lines 22-25) -/

/-- Lines 22-25. -/
def EXPORTS_LoadModule (env : Env) (moduleName : String) (filePath : Path) (s : State) :
    Result (Option HMODULE) :=
  let s := s.logLine ("Attempting to load module: " ++ moduleName ++ " from " ++ pathString filePath)
  match s.dllLoader with
  | none => .crash s
  | some _ => .ok (env.LoadModule filePath) (s.emit (.loadModule filePath))

/-! ## `discoverLoaderMods` (lines 41-58) -/

/-- The test of line 45. -/
def isCandidate (file : DirEntry) : Bool :=
  file.is_regular_file && extension file.filename == ".dll"

/-- The loop of lines 44-57 over the entries the iterator still has to yield. -/
def discoverLoop (env : Env) (directoryPath : Path) :
    List DirEntry → Registry → State → Result Registry
  | [], discoveredModules, s => .ok discoveredModules s
  | file :: rest, discoveredModules, s =>
    if isCandidate file then
      let s := s.logLine ("Discovering loader module candidate tetest " ++ quoted file.filename)
      match s.dllLoader with
      | none => .crash s
      | some _ =>
        let s := s.emit (.loadModule (directoryPath ++ [file.filename]))
        match env.LoadModule (directoryPath ++ [file.filename]) with
        | some loadedModule =>
          let s := s.logLine ("Successfully loaded module " ++ quoted file.filename)
          discoverLoop env directoryPath rest (mapInsert file.filename loadedModule discoveredModules) s
        | none =>
          let s := s.logLine ("Failed to load module " ++ quoted file.filename ++ ": ")
          let s := s.logLine ("Last Error Message: " ++ env.GetLastErrorAsString)
          .exited 1 s
    else discoverLoop env directoryPath rest discoveredModules s

/-- Lines 41-58. -/
def discoverLoaderMods (env : Env) (discoveredModules : Registry) (rootGameDirectory : Path)
    (s : State) : Result Registry :=
  let directoryPath := rootGameDirectory ++ ["loaders"]
  let s := s.emit (.createDirectories directoryPath)
  discoverLoop env directoryPath (env.directory_iterator directoryPath) discoveredModules s

/-! ## `bootstrapLoaderMods` (lines 60-79) -/

/-- The capability table of lines 67-75. -/
def makeAccessors (gameRootDirectory : Path) : BootstrapAccessors :=
  { gameRootDirectory := gameRootDirectory
    LoadModule := .EXPORTS_LoadModule
    GetModuleProcAddress := .EXPORTS_GetModuleProcAddress
    IsLoaderModuleLoaded := .EXPORTS_IsLoaderModuleLoaded
    ResolveModuleSymbol := .EXPORTS_ResolveModuleSymbol
    version := bootstrapperVersion
    FlushDebugSymbols := .EXPORTS_FlushDebugSymbols }

/-- Running the code of an entry point: its calls back into this translation unit, in order.
`hook` is the exported `setupExecutableHook`, as the module reaches it. -/
def runActions (env : Env) (hook : HMODULE → State → Outcome) :
    List ModAction → State → Outcome
  | [], s => .ok () s
  | .callSetupExecutableHook h :: rest, s =>
    match hook h s with
    | .ok _ s => runActions env hook rest s
    | other => other
  | .callLoadModule moduleName filePath :: rest, s =>
    match EXPORTS_LoadModule env moduleName filePath s with
    | .ok _ s => runActions env hook rest s
    | .exited c s => .exited c s
    | .deadlock s => .deadlock s
    | .crash s => .crash s
    | .timeout => .timeout

/-- Lines 60-79. -/
def bootstrapLoaderMods (env : Env) (hook : HMODULE → State → Outcome)
    (gameRootDirectory : Path) : Registry → State → Outcome
  | [], s => .ok () s
  | loaderModule :: rest, s =>
    match env.GetProcAddress loaderModule.2 "BootstrapModule" with
    | none =>
      .ok () (s.logLine ("[WARNING]: BootstrapModule() not found in loader module "
        ++ loaderModule.1 ++ "!"))
    | some bootstrapFunc =>
      let accessors := makeAccessors gameRootDirectory
      let s := s.logLine ("Bootstrapping module " ++ loaderModule.1)
      let s := s.emit (.invoke loaderModule.1 bootstrapFunc accessors)
      match runActions env hook (env.code bootstrapFunc accessors) s with
      | .ok _ s => bootstrapLoaderMods env hook gameRootDirectory rest s
      | other => other

/-! ## `resolveGameRootDir` (lines 84-96) -/

/-- Lines 88-89: the module name up to its first `-`. -/
def gameFolderName : String :=
  String.mk (GAME_MODULE_NAME.toList.takeWhile (fun c => c != '-'))

/-- The loop of lines 92-94, run for at most `fuel` tests of its condition. -/
def walkUp (env : Env) : Nat → Path → Option Path
  | 0, _ => none
  | fuel + 1, rootDirPath =>
    if env.fsExists (rootDirPath ++ [gameFolderName]) then some rootDirPath
    else walkUp env fuel (parent_path rootDirPath)

/-- Lines 84-96. -/
def resolveGameRootDir (env : Env) (fuel : Nat) : Option Path :=
  walkUp env fuel (env.GetModuleFileNameW (env.GetModuleHandleA GAME_MODULE_NAME))

/-! ## `setupExecutableHook` (lines 98-139) -/

/-- Lines 98-139, with the hook that loaded modules call back as a parameter. -/
def hookBody (env : Env) (hook : HMODULE → State → Outcome) (fuel : Nat)
    (selfModuleHandle : HMODULE) (s : State) : Outcome :=
  if s.hookAlreadySetup then .ok () s
  else if s.setupHookMutex then .deadlock s
  else
    let s := { s with setupHookMutex := true }
    if s.hookAlreadySetup then .ok () { s with setupHookMutex := false }
    else
      let s := { s with hookAlreadySetup := true }
      let s := s.emit .initializeLogging
      let s := s.logLine "Setting up hooking"
      match resolveGameRootDir env fuel with
      | none => .timeout
      | some rootGameDirectory =>
        -- `getModuleFileName` of `util.h` is taken to be `GetModuleFileNameW` on the handle
        let bootstrapperDirectory :=
          parent_path (env.GetModuleFileNameW (some selfModuleHandle))
        let s := s.logLine ("Game Root Directory: " ++ quoted (pathString rootGameDirectory))
        let s := s.logLine ("Bootstrapper Directory: " ++ quoted (pathString bootstrapperDirectory))
        match env.GetModuleHandleA GAME_MODULE_NAME with
        | none =>
          .exited 1 (s.logLine ("Failed to find primary game module with name: "
            ++ GAME_MODULE_NAME))
        | some gameModule =>
          let diaDllPath := bootstrapperDirectory ++ ["msdia140.dll"]
          let s := s.emit (.loadLibraryW diaDllPath)
          match env.LoadLibraryW diaDllPath with
          | none =>
            let s := s.logLine "Failed to load DIA SDK implementation DLL."
            let s := s.logLine ("Expected to find it at: " ++ pathString diaDllPath)
            let s := s.logLine "Make sure it is here and restart. Exiting now."
            .exited 1 s
          | some diaDllHandle =>
            let resolver : SymbolResolver := ⟨gameModule, diaDllHandle, false⟩
            let s := s.emit (.newSymbolResolver gameModule diaDllHandle false)
            let s := { s.emit (.newDllLoader resolver) with dllLoader := some ⟨resolver⟩ }
            let s := s.logLine "Discovering loader modules..."
            match discoverLoaderMods env [] rootGameDirectory s with
            | .ok discoveredMods s =>
              let s := s.logLine "Bootstrapping loader modules..."
              match bootstrapLoaderMods env hook rootGameDirectory discoveredMods s with
              | .ok _ s =>
                let s := s.logLine "Successfully performed bootstrapping."
                .ok () { s with setupHookMutex := false }
              | other => other
            | .exited c s => .exited c s
            | .deadlock s => .deadlock s
            | .crash s => .crash s
            | .timeout => .timeout

/-- The exported hook.  `fuel` bounds the loop of `resolveGameRootDir` and the depth to which
calls of the hook from inside loaded modules are followed; below that depth such a call
counts as not finished. -/
def setupExecutableHook (env : Env) : Nat → HMODULE → State → Outcome
  | 0 => hookBody env (fun _ _ => .timeout) 0
  | fuel + 1 => hookBody env (setupExecutableHook env fuel) (fuel + 1)

/-- Calling the hook `n` times in sequence; a call that does not return ends the sequence. -/
def callHook (env : Env) (fuel : Nat) (selfModuleHandle : HMODULE) : Nat → State → Outcome
  | 0, s => .ok () s
  | n + 1, s =>
    match setupExecutableHook env fuel selfModuleHandle s with
    | .ok _ s => callHook env fuel selfModuleHandle n s
    | other => other

/-! ## Observations on the record of outside calls -/

/-- The paths handed to `DllLoader::LoadModule`, in call order. -/
def loadCalls (evs : List Event) : List Path :=
  evs.filterMap fun e => match e with
    | .loadModule p => some p
    | _ => none

/-- The entry-point calls, in call order: module name, entry point, capability table. -/
def invocations (evs : List Event) : List (String × FUNCTION_PTR × BootstrapAccessors) :=
  evs.filterMap fun e => match e with
    | .invoke name f acc => some (name, f, acc)
    | _ => none

/-- The calls that make up the stages before module bootstrap: log initialisation,
provider load, resolver and loader construction, start of discovery. -/
def stages (evs : List Event) : List Event :=
  evs.filter fun e => match e with
    | .initializeLogging => true
    | .loadLibraryW _ => true
    | .newSymbolResolver _ _ _ => true
    | .newDllLoader _ => true
    | .createDirectories _ => true
    | _ => false

/-- The registry after the loop of `discoverLoaderMods` has gone through `files` with every
load succeeding. -/
def insertAll (env : Env) (directoryPath : Path) : List DirEntry → Registry → Registry
  | [], discoveredModules => discoveredModules
  | file :: rest, discoveredModules =>
    if isCandidate file then
      match env.LoadModule (directoryPath ++ [file.filename]) with
      | some loadedModule =>
        insertAll env directoryPath rest (mapInsert file.filename loadedModule discoveredModules)
      | none => insertAll env directoryPath rest discoveredModules
    else insertAll env directoryPath rest discoveredModules

/-- A module of the registry exports `BootstrapModule`. -/
def exportsBootstrap (env : Env) (loaderModule : String × HMODULE) : Bool :=
  (env.GetProcAddress loaderModule.2 "BootstrapModule").isSome

/-- The entry-point calls `bootstrapLoaderMods` makes on a registry when every call returns:
one for each module up to the first that lacks `BootstrapModule`. -/
def entryCalls (env : Env) (gameRootDirectory : Path) (discoveredModules : Registry) :
    List (String × FUNCTION_PTR × BootstrapAccessors) :=
  (discoveredModules.takeWhile (exportsBootstrap env)).filterMap fun loaderModule =>
    (env.GetProcAddress loaderModule.2 "BootstrapModule").map fun bootstrapFunc =>
      (loaderModule.1, bootstrapFunc, makeAccessors gameRootDirectory)

/-- A hook that returns at once, leaving the state as it is, whenever the flag is set while
the mutex is held. -/
def Quiet (hook : HMODULE → State → Outcome) : Prop :=
  ∀ h s, s.hookAlreadySetup = true → s.setupHookMutex = true → hook h s = .ok () s

/-- Keys of a registry in ascending order. -/
def KeySorted (reg : Registry) : Prop := reg.Pairwise (fun a b => a.1 < b.1)

/-- The outside calls of source lines 107-131 when neither the host module nor the symbol
provider is missing. -/
def setupEvents (env : Env) (selfModuleHandle : HMODULE) (rootGameDirectory : Path)
    (gameModule diaDllHandle : HMODULE) : List Event :=
  [ .initializeLogging,
    .log "Setting up hooking",
    .log ("Game Root Directory: " ++ quoted (pathString rootGameDirectory)),
    .log ("Bootstrapper Directory: " ++ quoted (pathString
      (parent_path (env.GetModuleFileNameW (some selfModuleHandle))))),
    .loadLibraryW (parent_path (env.GetModuleFileNameW (some selfModuleHandle))
      ++ ["msdia140.dll"]),
    .newSymbolResolver gameModule diaDllHandle false,
    .newDllLoader ⟨gameModule, diaDllHandle, false⟩,
    .log "Discovering loader modules..." ]

/-- The state in which `discoverLoaderMods` is entered (source line 133). -/
def discoveryState (env : Env) (selfModuleHandle : HMODULE) (rootGameDirectory : Path)
    (gameModule diaDllHandle : HMODULE) (s : State) : State :=
  { hookAlreadySetup := true
    setupHookMutex := true
    dllLoader := some ⟨⟨gameModule, diaDllHandle, false⟩⟩
    events := s.events ++ setupEvents env selfModuleHandle rootGameDirectory gameModule
      diaDllHandle }

/-- The record of outside calls at the end of a call that ended; empty otherwise. -/
def Result.events {α : Type} (r : Result α) : List Event :=
  match r.state? with
  | some s => s.events
  | none => []

/-! ## Concrete platforms -/

/-- An installation under `/Sat`: the host image is
`/Sat/FactoryGame/Binaries/Win64/FactoryGame-Win64-Shipping.exe`, the directory `/Sat/loaders`
yields `b.dll`, `x.txt`, `a.dll` in that order, every load succeeds and every module exports
`BootstrapModule`; the entry point of `b.dll` calls the hook again and then loads `/z.dll`. -/
def exampleEnv : Env where
  GetModuleHandleA := fun n => if n = GAME_MODULE_NAME then some 1 else none
  GetModuleFileNameW := fun h =>
    if h = some 1 then ["Sat", "FactoryGame", "Binaries", "Win64", "FactoryGame-Win64-Shipping.exe"]
    else ["Sat", "FactoryGame", "Binaries", "Win64", "xinput1_3.dll"]
  fsExists := fun p => p = ["Sat", "FactoryGame"]
  LoadLibraryW := fun _ => some 5
  directory_iterator := fun _ => [⟨"b.dll", true⟩, ⟨"x.txt", true⟩, ⟨"a.dll", true⟩]
  LoadModule := fun p => if p = ["Sat", "loaders", "b.dll"] then some 10 else some 11
  GetProcAddress := fun h _ => some (h + 100)
  code := fun f _ =>
    if f = 110 then [.callSetupExecutableHook 7, .callLoadModule "z" ["z.dll"]] else []
  GetLastErrorAsString := ""

/-- As `exampleEnv`, but the directory yields `a.dll`, `bad.dll`, `c.dll` and `bad.dll` does
not load. -/
def failingLoadEnv : Env :=
  { exampleEnv with
    directory_iterator := fun _ => [⟨"a.dll", true⟩, ⟨"bad.dll", true⟩, ⟨"c.dll", true⟩]
    LoadModule := fun p => if p = ["Sat", "loaders", "bad.dll"] then none else some 11 }

/-- As `exampleEnv`, but the directory yields `a.dll`, `b.dll`, loaded as modules 1 and 2, and
module 1 (`a.dll`) has no `BootstrapModule`. -/
def missingEntryEnv : Env :=
  { exampleEnv with
    directory_iterator := fun _ => [⟨"a.dll", true⟩, ⟨"b.dll", true⟩]
    LoadModule := fun p => if p = ["Sat", "loaders", "a.dll"] then some 1 else some 2
    GetProcAddress := fun h _ => if h = 1 then none else some (h + 100) }

/-- As `exampleEnv`, but nothing on the disk is named `FactoryGame`: the host image is
`/Games/bin/FactoryGame-Win64-Shipping.exe`. -/
def noMarkerEnv : Env :=
  { exampleEnv with
    GetModuleFileNameW := fun _ => ["Games", "bin", "FactoryGame-Win64-Shipping.exe"]
    fsExists := fun _ => false }

/-- A process in which the host module is not resident: the executable is
`/Games/Other/other.exe` and nothing on the disk is named `FactoryGame`. -/
def noHostEnv : Env :=
  { exampleEnv with
    GetModuleHandleA := fun _ => none
    GetModuleFileNameW := fun _ => ["Games", "Other", "other.exe"]
    fsExists := fun _ => false }

/-- A state inside the bootstrap: flag set, mutex held, loader constructed. -/
def bootstrappingState : State :=
  { hookAlreadySetup := true, setupHookMutex := true,
    dllLoader := some ⟨⟨1, 5, false⟩⟩, events := [] }


/-! ## The key order -/

theorem char_toNat_lt (x y : Char) : x.toNat < y.toNat ↔ x < y := by
  rw [Char.lt_iff_val_lt_val]
  exact Iff.rfl

theorem charsLess_iff (a b : List Char) : charsLess a b = true ↔ a < b := by
  induction a generalizing b with
  | nil => cases b <;> simp [charsLess, List.nil_lt_cons]
  | cons x xs ih =>
    cases b with
    | nil => simp [charsLess]
    | cons y ys =>
      simp only [charsLess, char_toNat_lt]
      rcases lt_trichotomy x y with h | h | h
      · simp only [h, if_true, true_iff]
        exact List.Lex.rel h
      · subst h
        simp only [lt_irrefl, if_false, ih]
        exact List.Lex.cons_iff.symm
      · simp only [not_lt_of_lt h, h, if_false, if_true]
        constructor
        · intro h'; cases h'
        · intro h'
          exact absurd (lt_trans h' (List.Lex.rel h)) (lt_irrefl _)

theorem stringLess_iff (a b : String) : stringLess a b = true ↔ a < b := by
  rw [String.lt_iff_toList_lt]
  exact charsLess_iff _ _

theorem mapInsert_mem (k : String) (v : HMODULE) (reg : Registry) (x : String × HMODULE) :
    x ∈ mapInsert k v reg → x ∈ reg ∨ x = (k, v) := by
  induction reg with
  | nil => simp [mapInsert]
  | cons hd tl ih =>
    obtain ⟨k', v'⟩ := hd
    simp only [mapInsert]
    split_ifs with h1 h2
    · simp only [List.mem_cons]; tauto
    · simp only [List.mem_cons]
      rintro (h | h)
      · tauto
      · have := ih h; tauto
    · simp only [List.mem_cons]; tauto

theorem mapInsert_sorted (k : String) (v : HMODULE) (reg : Registry) (h : KeySorted reg) :
    KeySorted (mapInsert k v reg) := by
  induction reg with
  | nil => simp [mapInsert, KeySorted]
  | cons hd tl ih =>
    obtain ⟨k', v'⟩ := hd
    have htl : KeySorted tl := (List.pairwise_cons.1 h).2
    have hhd := (List.pairwise_cons.1 h).1
    simp only [mapInsert]
    split_ifs with h1 h2
    · rw [stringLess_iff] at h1
      refine List.pairwise_cons.2 ⟨?_, h⟩
      intro x hx
      rcases List.mem_cons.1 hx with rfl | hx
      · exact h1
      · exact lt_trans h1 (hhd x hx)
    · rw [stringLess_iff] at h2
      refine List.pairwise_cons.2 ⟨?_, ih htl⟩
      intro x hx
      rcases mapInsert_mem k v tl x hx with hx | rfl
      · exact hhd x hx
      · exact h2
    · exact h

theorem mapInsert_keys (k : String) (v : HMODULE) (reg : Registry) (x : String) :
    x ∈ (mapInsert k v reg).map Prod.fst ↔ x = k ∨ x ∈ reg.map Prod.fst := by
  induction reg with
  | nil => simp [mapInsert]
  | cons hd tl ih =>
    obtain ⟨k', v'⟩ := hd
    simp only [mapInsert]
    split_ifs with h1 h2
    · simp
    · simp only [List.map_cons, List.mem_cons, ih]; tauto
    · rw [stringLess_iff] at h1 h2
      have : k = k' := le_antisymm (not_lt.1 h2) (not_lt.1 h1)
      subst this
      simp


theorem keySorted_not_mem (k k' : String) (v' : HMODULE) (tl : Registry)
    (h : KeySorted ((k', v') :: tl)) (hk : k < k') : k ∉ ((k', v') :: tl).map Prod.fst := by
  intro hmem
  rcases List.mem_map.1 hmem with ⟨x, hx, rfl⟩
  rcases List.mem_cons.1 hx with rfl | hx
  · exact lt_irrefl _ hk
  · exact lt_irrefl _ (lt_trans hk ((List.pairwise_cons.1 h).1 x hx))

theorem mapInsert_mem_iff (k : String) (v : HMODULE) (reg : Registry) (h : KeySorted reg)
    (x : String × HMODULE) :
    x ∈ mapInsert k v reg ↔ x ∈ reg ∨ (x = (k, v) ∧ k ∉ reg.map Prod.fst) := by
  induction reg with
  | nil => simp [mapInsert]
  | cons hd tl ih =>
    obtain ⟨k', v'⟩ := hd
    have htl : KeySorted tl := (List.pairwise_cons.1 h).2
    simp only [mapInsert]
    split_ifs with h1 h2
    · rw [stringLess_iff] at h1
      have hn := keySorted_not_mem k k' v' tl h h1
      simp only [List.mem_cons]
      constructor
      · rintro (h | h | h)
        · exact Or.inr ⟨h, hn⟩
        · exact Or.inl (Or.inl h)
        · exact Or.inl (Or.inr h)
      · rintro ((h | h) | ⟨h, -⟩)
        · exact Or.inr (Or.inl h)
        · exact Or.inr (Or.inr h)
        · exact Or.inl h
    · rw [stringLess_iff] at h2
      simp only [List.mem_cons, ih htl, List.map_cons, not_or]
      have hne : ¬ k = k' := fun e => lt_irrefl _ (e ▸ h2)
      constructor
      · rintro (h | h | ⟨h, hn⟩)
        · exact Or.inl (Or.inl h)
        · exact Or.inl (Or.inr h)
        · exact Or.inr ⟨h, hne, hn⟩
      · rintro ((h | h) | ⟨h, -, hn⟩)
        · exact Or.inl h
        · exact Or.inr (Or.inl h)
        · exact Or.inr (Or.inr ⟨h, hn⟩)
    · rw [stringLess_iff] at h1 h2
      have : k = k' := le_antisymm (not_lt.1 h2) (not_lt.1 h1)
      subst this
      simp

theorem insertAll_sorted (env : Env) (dir : Path) (l : List DirEntry) (reg : Registry)
    (h : KeySorted reg) : KeySorted (insertAll env dir l reg) := by
  induction l generalizing reg with
  | nil => exact h
  | cons file rest ih =>
    simp only [insertAll]
    split_ifs
    · split
      · exact ih _ (mapInsert_sorted _ _ _ h)
      · exact ih _ h
    · exact ih _ h

theorem insertAll_mem_iff (env : Env) (dir : Path) (l : List DirEntry) (reg : Registry)
    (h : KeySorted reg) (hnd : (l.map DirEntry.filename).Nodup) (x : String × HMODULE) :
    x ∈ insertAll env dir l reg ↔
      x ∈ reg ∨ (x.1 ∉ reg.map Prod.fst ∧ ∃ e ∈ l, isCandidate e = true ∧ x.1 = e.filename ∧
        env.LoadModule (dir ++ [e.filename]) = some x.2) := by
  induction l generalizing reg with
  | nil => simp [insertAll]
  | cons file rest ih =>
    have hnd' : (rest.map DirEntry.filename).Nodup := (List.nodup_cons.1 hnd).2
    have hfile : ∀ e ∈ rest, e.filename ≠ file.filename := by
      intro e he heq
      exact (List.nodup_cons.1 hnd).1 (heq ▸ List.mem_map_of_mem _ he)
    simp only [insertAll]
    by_cases hc : isCandidate file = true
    · simp only [hc, if_true]
      cases hload : env.LoadModule (dir ++ [file.filename]) with
      | none =>
        simp only [ih reg h hnd', List.mem_cons]
        constructor
        · rintro (h | ⟨hn, e, he, h1, h2, h3⟩)
          · exact Or.inl h
          · exact Or.inr ⟨hn, e, Or.inr he, h1, h2, h3⟩
        · rintro (h | ⟨hn, e, rfl | he, h1, h2, h3⟩)
          · exact Or.inl h
          · rw [hload] at h3; cases h3
          · exact Or.inr ⟨hn, e, he, h1, h2, h3⟩
      | some v =>
        simp only [ih _ (mapInsert_sorted _ v _ h) hnd', mapInsert_mem_iff _ _ _ h,
          mapInsert_keys, List.mem_cons, not_or]
        constructor
        · rintro ((h | ⟨rfl, hn⟩) | ⟨⟨hne, hn⟩, e, he, h1, h2, h3⟩)
          · exact Or.inl h
          · exact Or.inr ⟨hn, file, Or.inl rfl, hc, rfl, hload⟩
          · exact Or.inr ⟨hn, e, Or.inr he, h1, h2, h3⟩
        · rintro (h | ⟨hn, e, rfl | he, h1, h2, h3⟩)
          · exact Or.inl (Or.inl h)
          · left; right
            refine ⟨?_, h2 ▸ hn⟩
            rw [hload] at h3
            obtain ⟨a, b⟩ := x
            simp only at h2 h3
            simp only [Option.some.injEq] at h3
            rw [h2, h3]
          · right
            exact ⟨⟨fun heq => hfile e he (h2.symm.trans heq), hn⟩, e, he, h1, h2, h3⟩
    · simp only [hc, Bool.false_eq_true, if_false, ih reg h hnd', List.mem_cons]
      constructor
      · rintro (h | ⟨hn, e, he, h1, h2, h3⟩)
        · exact Or.inl h
        · exact Or.inr ⟨hn, e, Or.inr he, h1, h2, h3⟩
      · rintro (h | ⟨hn, e, rfl | he, h1, h2, h3⟩)
        · exact Or.inl h
        · exact absurd h1 hc
        · exact Or.inr ⟨hn, e, he, h1, h2, h3⟩

theorem keySorted_nodup (reg : Registry) (h : KeySorted reg) : reg.Nodup := by
  refine List.Pairwise.imp ?_ h
  intro a b hab heq
  exact lt_irrefl _ (heq ▸ hab)

theorem keySorted_keys_nodup (reg : Registry) (h : KeySorted reg) :
    (reg.map Prod.fst).Nodup := by
  refine (List.pairwise_map.2 ?_)
  refine List.Pairwise.imp ?_ h
  intro a b hab heq
  exact lt_irrefl _ (heq ▸ hab)

theorem keySorted_ext (r1 r2 : Registry) (h1 : KeySorted r1) (h2 : KeySorted r2)
    (hmem : ∀ x, x ∈ r1 ↔ x ∈ r2) : r1 = r2 := by
  have hperm : r1.Perm r2 :=
    (List.perm_ext_iff_of_nodup (keySorted_nodup _ h1) (keySorted_nodup _ h2)).2 hmem
  induction r1 generalizing r2 with
  | nil => exact (List.nil_perm.1 hperm).symm
  | cons a t ih =>
    cases r2 with
    | nil => exact absurd hperm.symm (by simp)
    | cons b u =>
      have hab : a = b := by
        have ha : a ∈ b :: u := (hmem a).1 (List.mem_cons_self _ _)
        have hb : b ∈ a :: t := (hmem b).2 (List.mem_cons_self _ _)
        rcases List.mem_cons.1 ha with h | ha
        · exact h
        · rcases List.mem_cons.1 hb with h | hb
          · exact h.symm
          · exact absurd (lt_trans ((List.pairwise_cons.1 h1).1 b hb)
              ((List.pairwise_cons.1 h2).1 a ha)) (lt_irrefl _)
      subst hab
      have hp : t.Perm u := (List.perm_cons a).1 hperm
      rw [ih u (List.pairwise_cons.1 h1).2 (List.pairwise_cons.1 h2).2
        (fun x => hp.mem_iff) hp]

theorem insertAll_perm (env : Env) (dir : Path) (l l' : List DirEntry) (hp : l'.Perm l)
    (hnd : (l.map DirEntry.filename).Nodup) :
    insertAll env dir l' [] = insertAll env dir l [] := by
  have hnd' : (l'.map DirEntry.filename).Nodup := (hp.map _).nodup_iff.2 hnd
  have hs : KeySorted ([] : Registry) := List.Pairwise.nil
  apply keySorted_ext _ _ (insertAll_sorted _ _ _ _ hs) (insertAll_sorted _ _ _ _ hs)
  intro x
  rw [insertAll_mem_iff _ _ _ _ hs hnd', insertAll_mem_iff _ _ _ _ hs hnd]
  simp only [hp.mem_iff]

theorem insertAll_keys_perm (env : Env) (dir : Path) (l : List DirEntry)
    (hnd : (l.map DirEntry.filename).Nodup)
    (hok : ∀ e ∈ l, isCandidate e = true → env.LoadModule (dir ++ [e.filename]) ≠ none) :
    ((insertAll env dir l []).map Prod.fst).Perm ((l.filter isCandidate).map DirEntry.filename) := by
  have hs : KeySorted ([] : Registry) := List.Pairwise.nil
  refine (List.perm_ext_iff_of_nodup (keySorted_keys_nodup _ (insertAll_sorted _ _ _ _ hs)) ?_).2 ?_
  · exact (List.Nodup.sublist ((List.filter_sublist l).map _) hnd)
  · intro k
    simp only [List.mem_map, List.mem_filter]
    constructor
    · rintro ⟨x, hx, rfl⟩
      rcases (insertAll_mem_iff _ _ _ _ hs hnd x).1 hx with h | ⟨-, e, he, h1, h2, -⟩
      · cases h
      · exact ⟨e, ⟨he, h1⟩, h2.symm⟩
    · rintro ⟨e, ⟨he, h1⟩, rfl⟩
      cases hload : env.LoadModule (dir ++ [e.filename]) with
      | none => exact absurd hload (hok e he h1)
      | some v =>
        exact ⟨(e.filename, v), (insertAll_mem_iff _ _ _ _ hs hnd _).2
          (Or.inr ⟨by simp, e, he, h1, rfl, hload⟩), rfl⟩


/-! ## The record of outside calls -/

@[simp] theorem addEvents_flag (s : State) (evs : List Event) :
    (s.addEvents evs).hookAlreadySetup = s.hookAlreadySetup := rfl

@[simp] theorem addEvents_mutex (s : State) (evs : List Event) :
    (s.addEvents evs).setupHookMutex = s.setupHookMutex := rfl

@[simp] theorem addEvents_loader (s : State) (evs : List Event) :
    (s.addEvents evs).dllLoader = s.dllLoader := rfl

@[simp] theorem addEvents_events (s : State) (evs : List Event) :
    (s.addEvents evs).events = s.events ++ evs := rfl

@[simp] theorem addEvents_addEvents (s : State) (a b : List Event) :
    (s.addEvents a).addEvents b = s.addEvents (a ++ b) := by
  simp [State.addEvents]

theorem addEvents_nil (s : State) : s.addEvents [] = s := by
  simp [State.addEvents]

@[simp] theorem emit_eq (s : State) (e : Event) : s.emit e = s.addEvents [e] := rfl

@[simp] theorem logLine_eq (s : State) (line : String) :
    s.logLine line = s.addEvents [Event.log line] := rfl

@[simp] theorem loadCalls_append (a b : List Event) :
    loadCalls (a ++ b) = loadCalls a ++ loadCalls b := by
  simp [loadCalls]

@[simp] theorem invocations_append (a b : List Event) :
    invocations (a ++ b) = invocations a ++ invocations b := by
  simp [invocations]

@[simp] theorem stages_append (a b : List Event) :
    stages (a ++ b) = stages a ++ stages b := by
  simp [stages]

@[simp] theorem loadCalls_nil : loadCalls [] = [] := rfl

@[simp] theorem invocations_nil : invocations [] = [] := rfl

@[simp] theorem stages_nil : stages [] = [] := rfl

@[simp] theorem loadCalls_cons (e : Event) (a : List Event) :
    loadCalls (e :: a) = match e with
      | .loadModule p => p :: loadCalls a
      | _ => loadCalls a := by
  cases e <;> rfl

@[simp] theorem invocations_cons (e : Event) (a : List Event) :
    invocations (e :: a) = match e with
      | .invoke name f acc => (name, f, acc) :: invocations a
      | _ => invocations a := by
  cases e <;> rfl

@[simp] theorem stages_cons (e : Event) (a : List Event) :
    stages (e :: a) = match e with
      | .initializeLogging => e :: stages a
      | .loadLibraryW _ => e :: stages a
      | .newSymbolResolver _ _ _ => e :: stages a
      | .newDllLoader _ => e :: stages a
      | .createDirectories _ => e :: stages a
      | _ => stages a := by
  cases e <;> rfl

/-! ## `discoverLoaderMods` -/

theorem discoverLoop_ok (env : Env) (dir : Path) (l : List DirEntry) (reg : Registry)
    (s : State) (hl : s.dllLoader ≠ none)
    (hok : ∀ e ∈ l, isCandidate e = true → env.LoadModule (dir ++ [e.filename]) ≠ none) :
    ∃ evs, discoverLoop env dir l reg s = .ok (insertAll env dir l reg) (s.addEvents evs) ∧
      loadCalls evs = (l.filter isCandidate).map (fun e => dir ++ [e.filename]) ∧
      invocations evs = [] ∧ stages evs = [] := by
  induction l generalizing reg s with
  | nil => exact ⟨[], by simp [discoverLoop, insertAll, addEvents_nil], rfl, rfl, rfl⟩
  | cons file rest ih =>
    have hok' : ∀ e ∈ rest, isCandidate e = true → env.LoadModule (dir ++ [e.filename]) ≠ none :=
      fun e he => hok e (List.mem_cons_of_mem _ he)
    by_cases hc : isCandidate file = true
    · cases hload : env.LoadModule (dir ++ [file.filename]) with
      | none => exact absurd hload (hok file (List.mem_cons_self _ _) hc)
      | some v =>
        cases hL : s.dllLoader with
        | none => exact absurd hL hl
        | some L =>
          obtain ⟨evs, h1, h2, h3, h4⟩ := ih (mapInsert file.filename v reg)
            (s.addEvents [Event.log ("Discovering loader module candidate tetest "
              ++ quoted file.filename), Event.loadModule (dir ++ [file.filename]),
              Event.log ("Successfully loaded module " ++ quoted file.filename)])
            (by simpa using hl) hok'
          refine ⟨Event.log ("Discovering loader module candidate tetest "
            ++ quoted file.filename) :: Event.loadModule (dir ++ [file.filename]) ::
            Event.log ("Successfully loaded module " ++ quoted file.filename) :: evs, ?_, ?_, ?_, ?_⟩
          · simp only [discoverLoop, hc, if_true, logLine_eq, emit_eq, addEvents_loader, hL,
              hload, addEvents_addEvents, insertAll]
            simpa using h1
          · simp [List.filter_cons, hc, h2]
          · simp [h3]
          · simp [h4]
    · obtain ⟨evs, h1, h2, h3, h4⟩ := ih reg s hl hok'
      refine ⟨evs, ?_, ?_, h3, h4⟩
      · simpa [discoverLoop, hc, insertAll] using h1
      · simp [List.filter_cons, hc, h2]

theorem discoverLoop_fail (env : Env) (dir : Path) (l : List DirEntry) (reg : Registry)
    (s : State) (hl : s.dllLoader ≠ none) (pre post : List DirEntry) (bad : DirEntry)
    (hsplit : l.filter isCandidate = pre ++ bad :: post)
    (hpre : ∀ e ∈ pre, env.LoadModule (dir ++ [e.filename]) ≠ none)
    (hbad : env.LoadModule (dir ++ [bad.filename]) = none) :
    ∃ evs, discoverLoop env dir l reg s = .exited 1 (s.addEvents evs) ∧
      loadCalls evs = (pre ++ [bad]).map (fun e => dir ++ [e.filename]) ∧
      invocations evs = [] ∧ stages evs = [] := by
  induction l generalizing reg s pre with
  | nil => simp at hsplit
  | cons file rest ih =>
    by_cases hc : isCandidate file = true
    · rw [List.filter_cons, if_pos hc] at hsplit
      cases hL : s.dllLoader with
      | none => exact absurd hL hl
      | some L =>
        cases pre with
        | nil =>
          simp only [List.nil_append, List.cons.injEq] at hsplit
          obtain ⟨rfl, -⟩ := hsplit
          refine ⟨[Event.log ("Discovering loader module candidate tetest "
            ++ quoted file.filename), Event.loadModule (dir ++ [file.filename]),
            Event.log ("Failed to load module " ++ quoted file.filename ++ ": "),
            Event.log ("Last Error Message: " ++ env.GetLastErrorAsString)], ?_, ?_, ?_, ?_⟩
          · simp only [discoverLoop, hc, if_true, logLine_eq, emit_eq, addEvents_loader, hL,
              hbad, addEvents_addEvents, List.cons_append, List.nil_append]
          · simp
          · simp
          · simp
        | cons p pre' =>
          simp only [List.cons_append, List.cons.injEq] at hsplit
          obtain ⟨rfl, hsplit⟩ := hsplit
          cases hload : env.LoadModule (dir ++ [file.filename]) with
          | none => exact absurd hload (hpre file (List.mem_cons_self _ _))
          | some v =>
            obtain ⟨evs, h1, h2, h3, h4⟩ := ih (mapInsert file.filename v reg)
              (s.addEvents [Event.log ("Discovering loader module candidate tetest "
                ++ quoted file.filename), Event.loadModule (dir ++ [file.filename]),
                Event.log ("Successfully loaded module " ++ quoted file.filename)])
              (by simpa using hl) pre' hsplit (fun e he => hpre e (List.mem_cons_of_mem _ he))
            refine ⟨Event.log ("Discovering loader module candidate tetest "
            ++ quoted file.filename) :: Event.loadModule (dir ++ [file.filename]) ::
            Event.log ("Successfully loaded module " ++ quoted file.filename) :: evs, ?_, ?_, ?_, ?_⟩
            · simp only [discoverLoop, hc, if_true, logLine_eq, emit_eq, addEvents_loader, hL,
                hload, addEvents_addEvents]
              simpa using h1
            · simp [h2]
            · simp [h3]
            · simp [h4]
    · rw [List.filter_cons, if_neg hc] at hsplit
      obtain ⟨evs, h1, h2, h3, h4⟩ := ih reg s hl pre hsplit hpre
      exact ⟨evs, by simpa [discoverLoop, hc] using h1, h2, h3, h4⟩

theorem candidates_split (env : Env) (dir : Path) (l : List DirEntry)
    (h : ∃ e ∈ l, isCandidate e = true ∧ env.LoadModule (dir ++ [e.filename]) = none) :
    ∃ pre bad post, l.filter isCandidate = pre ++ bad :: post ∧
      (∀ e ∈ pre, env.LoadModule (dir ++ [e.filename]) ≠ none) ∧
      env.LoadModule (dir ++ [bad.filename]) = none := by
  induction l with
  | nil => simp at h
  | cons file rest ih =>
    by_cases hc : isCandidate file = true
    · cases hload : env.LoadModule (dir ++ [file.filename]) with
      | none => exact ⟨[], file, rest.filter isCandidate, by simp [List.filter_cons, hc],
          by simp, hload⟩
      | some v =>
        have h' : ∃ e ∈ rest, isCandidate e = true ∧
            env.LoadModule (dir ++ [e.filename]) = none := by
          obtain ⟨e, he, h1, h2⟩ := h
          rcases List.mem_cons.1 he with rfl | he
          · rw [hload] at h2; cases h2
          · exact ⟨e, he, h1, h2⟩
        obtain ⟨pre, bad, post, h1, h2, h3⟩ := ih h'
        refine ⟨file :: pre, bad, post, by simp [List.filter_cons, hc, h1], ?_, h3⟩
        intro e he
        rcases List.mem_cons.1 he with rfl | he
        · simp [hload]
        · exact h2 e he
    · have h' : ∃ e ∈ rest, isCandidate e = true ∧
          env.LoadModule (dir ++ [e.filename]) = none := by
        obtain ⟨e, he, h1, h2⟩ := h
        rcases List.mem_cons.1 he with rfl | he
        · exact absurd h1 hc
        · exact ⟨e, he, h1, h2⟩
      obtain ⟨pre, bad, post, h1, h2, h3⟩ := ih h'
      exact ⟨pre, bad, post, by simp [List.filter_cons, hc, h1], h2, h3⟩

theorem discoverLoop_any (env : Env) (dir : Path) (l : List DirEntry) (reg : Registry)
    (s : State) (hl : s.dllLoader ≠ none) :
    ∃ evs, invocations evs = [] ∧ stages evs = [] ∧
      (discoverLoop env dir l reg s = .ok (insertAll env dir l reg) (s.addEvents evs) ∨
        discoverLoop env dir l reg s = .exited 1 (s.addEvents evs)) := by
  by_cases h : ∃ e ∈ l, isCandidate e = true ∧ env.LoadModule (dir ++ [e.filename]) = none
  · obtain ⟨pre, bad, post, h1, h2, h3⟩ := candidates_split env dir l h
    obtain ⟨evs, h4, -, h5, h6⟩ := discoverLoop_fail env dir l reg s hl pre post bad h1 h2 h3
    exact ⟨evs, h5, h6, Or.inr h4⟩
  · have hok : ∀ e ∈ l, isCandidate e = true → env.LoadModule (dir ++ [e.filename]) ≠ none := by
      intro e he hc hn
      exact h ⟨e, he, hc, hn⟩
    obtain ⟨evs, h4, -, h5, h6⟩ := discoverLoop_ok env dir l reg s hl hok
    exact ⟨evs, h5, h6, Or.inl h4⟩


/-! ## `bootstrapLoaderMods` -/

theorem runActions_quiet (env : Env) (hook : HMODULE → State → Outcome) (hq : Quiet hook)
    (acts : List ModAction) (s : State) (hf : s.hookAlreadySetup = true)
    (hm : s.setupHookMutex = true) (hl : s.dllLoader ≠ none) :
    ∃ evs, runActions env hook acts s = .ok () (s.addEvents evs) ∧
      invocations evs = [] ∧ stages evs = [] := by
  induction acts generalizing s with
  | nil => exact ⟨[], by simp [runActions, addEvents_nil], rfl, rfl⟩
  | cons a rest ih =>
    cases a with
    | callSetupExecutableHook h =>
      obtain ⟨evs, h1, h2, h3⟩ := ih s hf hm hl
      exact ⟨evs, by simp [runActions, hq h s hf hm, h1], h2, h3⟩
    | callLoadModule moduleName filePath =>
      cases hL : s.dllLoader with
      | none => exact absurd hL hl
      | some L =>
        obtain ⟨evs, h1, h2, h3⟩ := ih
          (s.addEvents [Event.log ("Attempting to load module: " ++ moduleName ++ " from "
            ++ pathString filePath), Event.loadModule filePath])
          (by simpa using hf) (by simpa using hm) (by simpa using hl)
        refine ⟨Event.log ("Attempting to load module: " ++ moduleName ++ " from "
            ++ pathString filePath) :: Event.loadModule filePath :: evs, ?_, ?_, ?_⟩
        · simp only [runActions, EXPORTS_LoadModule, logLine_eq, emit_eq, addEvents_loader, hL,
            addEvents_addEvents]
          simpa using h1
        · simp [h2]
        · simp [h3]

theorem runActions_congr (env : Env) (r1 r2 : HMODULE → State → Outcome) (hq1 : Quiet r1)
    (hq2 : Quiet r2) (acts : List ModAction) (s : State) (hf : s.hookAlreadySetup = true)
    (hm : s.setupHookMutex = true) :
    runActions env r1 acts s = runActions env r2 acts s := by
  induction acts generalizing s with
  | nil => rfl
  | cons a rest ih =>
    cases a with
    | callSetupExecutableHook h =>
      simp [runActions, hq1 h s hf hm, hq2 h s hf hm, ih s hf hm]
    | callLoadModule moduleName filePath =>
      simp only [runActions, EXPORTS_LoadModule, logLine_eq, emit_eq, addEvents_loader]
      cases hL : s.dllLoader with
      | none => rfl
      | some L =>
        simp only []
        rw [ih _ (by simpa using hf) (by simpa using hm)]

theorem bootstrapLoaderMods_quiet (env : Env) (hook : HMODULE → State → Outcome)
    (hq : Quiet hook) (root : Path) (reg : Registry) (s : State)
    (hf : s.hookAlreadySetup = true) (hm : s.setupHookMutex = true) (hl : s.dllLoader ≠ none) :
    ∃ evs, bootstrapLoaderMods env hook root reg s = .ok () (s.addEvents evs) ∧
      stages evs = [] ∧ invocations evs = entryCalls env root reg := by
  induction reg generalizing s with
  | nil => exact ⟨[], by simp [bootstrapLoaderMods, addEvents_nil], rfl, rfl⟩
  | cons m rest ih =>
    cases hp : env.GetProcAddress m.2 "BootstrapModule" with
    | none =>
      refine ⟨[Event.log ("[WARNING]: BootstrapModule() not found in loader module "
        ++ m.1 ++ "!")], ?_, ?_, ?_⟩
      · simp [bootstrapLoaderMods, hp]
      · simp
      · simp [entryCalls, List.takeWhile_cons, exportsBootstrap, hp]
    | some f =>
      obtain ⟨evs1, h1, h2, h3⟩ := runActions_quiet env hook hq (env.code f (makeAccessors root))
        (s.addEvents [Event.log ("Bootstrapping module " ++ m.1),
          Event.invoke m.1 f (makeAccessors root)])
        (by simpa using hf) (by simpa using hm) (by simpa using hl)
      obtain ⟨evs2, h4, h5, h6⟩ := ih
        ((s.addEvents [Event.log ("Bootstrapping module " ++ m.1),
          Event.invoke m.1 f (makeAccessors root)]).addEvents evs1)
        (by simpa using hf) (by simpa using hm) (by simpa using hl)
      refine ⟨Event.log ("Bootstrapping module " ++ m.1) ::
        Event.invoke m.1 f (makeAccessors root) :: (evs1 ++ evs2), ?_, ?_, ?_⟩
      · simp only [bootstrapLoaderMods, hp, logLine_eq, emit_eq, addEvents_addEvents]
        simp only [addEvents_addEvents] at h1 h4
        simp only [List.cons_append, List.nil_append] at h1 h4 ⊢
        rw [h1]
        simp only []
        rw [h4]
      · simp [h3, h5]
      · simp [h2, h6, entryCalls, List.takeWhile_cons, exportsBootstrap, hp]

theorem bootstrapLoaderMods_congr (env : Env) (r1 r2 : HMODULE → State → Outcome)
    (hq1 : Quiet r1) (hq2 : Quiet r2) (root : Path) (reg : Registry) (s : State)
    (hf : s.hookAlreadySetup = true) (hm : s.setupHookMutex = true) (hl : s.dllLoader ≠ none) :
    bootstrapLoaderMods env r1 root reg s = bootstrapLoaderMods env r2 root reg s := by
  induction reg generalizing s with
  | nil => rfl
  | cons m rest ih =>
    cases hp : env.GetProcAddress m.2 "BootstrapModule" with
    | none => simp [bootstrapLoaderMods, hp]
    | some f =>
      obtain ⟨evs1, h1, -, -⟩ := runActions_quiet env r2 hq2 (env.code f (makeAccessors root))
        (s.addEvents [Event.log ("Bootstrapping module " ++ m.1),
          Event.invoke m.1 f (makeAccessors root)])
        (by simpa using hf) (by simpa using hm) (by simpa using hl)
      have hc := runActions_congr env r1 r2 hq1 hq2 (env.code f (makeAccessors root))
        (s.addEvents [Event.log ("Bootstrapping module " ++ m.1),
          Event.invoke m.1 f (makeAccessors root)])
        (by simpa using hf) (by simpa using hm)
      simp only [bootstrapLoaderMods, hp, logLine_eq, emit_eq, addEvents_addEvents]
      simp only [List.cons_append, List.nil_append] at h1 hc ⊢
      rw [hc, h1]
      simp only []
      exact ih _ (by simpa using hf) (by simpa using hm) (by simpa using hl)

theorem entryCalls_names_sublist (env : Env) (root : Path) (reg : Registry) :
    ((entryCalls env root reg).map Prod.fst).Sublist (reg.map Prod.fst) := by
  induction reg with
  | nil => simp [entryCalls]
  | cons m rest ih =>
    cases hp : env.GetProcAddress m.2 "BootstrapModule" with
    | none => simp [entryCalls, List.takeWhile_cons, exportsBootstrap, hp]
    | some f =>
      have : entryCalls env root (m :: rest) = (m.1, f, makeAccessors root) ::
          entryCalls env root rest := by
        simp [entryCalls, List.takeWhile_cons, exportsBootstrap, hp]
      rw [this]
      simpa using ih

theorem entryCalls_names_all (env : Env) (root : Path) (reg : Registry)
    (h : ∀ m ∈ reg, env.GetProcAddress m.2 "BootstrapModule" ≠ none) :
    (entryCalls env root reg).map Prod.fst = reg.map Prod.fst := by
  induction reg with
  | nil => simp [entryCalls]
  | cons m rest ih =>
    cases hp : env.GetProcAddress m.2 "BootstrapModule" with
    | none => exact absurd hp (h m (List.mem_cons_self _ _))
    | some f =>
      have : entryCalls env root (m :: rest) = (m.1, f, makeAccessors root) ::
          entryCalls env root rest := by
        simp [entryCalls, List.takeWhile_cons, exportsBootstrap, hp]
      rw [this]
      simp [ih (fun m hm => h m (List.mem_cons_of_mem _ hm))]

theorem entryCalls_table (env : Env) (root : Path) (reg : Registry) :
    ∀ x ∈ entryCalls env root reg, x.2.2 = makeAccessors root := by
  intro x hx
  simp only [entryCalls, List.mem_filterMap, Option.map_eq_some'] at hx
  obtain ⟨m, -, f, -, rfl⟩ := hx
  rfl


/-! ## `resolveGameRootDir` -/

theorem walkUp_short (env : Env) (d : Nat) (p : Path)
    (hmin : ∀ i < d, env.fsExists (parent_path^[i] p ++ [gameFolderName]) = false)
    (fuel : Nat) (hfuel : fuel ≤ d) : walkUp env fuel p = none := by
  induction fuel generalizing d p with
  | zero => rfl
  | succ n ih =>
    cases d with
    | zero => omega
    | succ d =>
      have h0 := hmin 0 (Nat.succ_pos _)
      simp only [Function.iterate_zero, id_eq] at h0
      simp only [walkUp, h0, Bool.false_eq_true, if_false]
      refine ih d (parent_path p) ?_ (by omega)
      intro i hi
      have := hmin (i + 1) (by omega)
      simpa [Function.iterate_succ] using this

theorem walkUp_found (env : Env) (d : Nat) (p : Path)
    (hd : env.fsExists (parent_path^[d] p ++ [gameFolderName]) = true)
    (hmin : ∀ i < d, env.fsExists (parent_path^[i] p ++ [gameFolderName]) = false)
    (fuel : Nat) (hfuel : d < fuel) : walkUp env fuel p = some (parent_path^[d] p) := by
  induction d generalizing p fuel with
  | zero =>
    cases fuel with
    | zero => omega
    | succ n =>
      simp only [Function.iterate_zero, id_eq] at hd
      simp [walkUp, hd]
  | succ d ih =>
    cases fuel with
    | zero => omega
    | succ n =>
      have h0 := hmin 0 (Nat.succ_pos _)
      simp only [Function.iterate_zero, id_eq] at h0
      simp only [walkUp, h0, Bool.false_eq_true, if_false]
      have := ih (parent_path p) (by simpa [Function.iterate_succ] using hd)
        (fun i hi => by simpa [Function.iterate_succ] using hmin (i + 1) (by omega)) n (by omega)
      simpa [Function.iterate_succ] using this

theorem walkUp_never (env : Env) (p : Path)
    (h : ∀ i, env.fsExists (parent_path^[i] p ++ [gameFolderName]) = false) (fuel : Nat) :
    walkUp env fuel p = none :=
  walkUp_short env fuel p (fun i _ => h i) fuel (le_refl _)

/-! ## `setupExecutableHook` -/

theorem hookBody_fast (env : Env) (hook : HMODULE → State → Outcome) (fuel : Nat) (h : HMODULE)
    (s : State) (hf : s.hookAlreadySetup = true) : hookBody env hook fuel h s = .ok () s := by
  simp [hookBody, hf]

theorem setupExecutableHook_fast (env : Env) (fuel : Nat) (h : HMODULE) (s : State)
    (hf : s.hookAlreadySetup = true) : setupExecutableHook env fuel h s = .ok () s := by
  cases fuel <;> exact hookBody_fast _ _ _ _ _ hf

theorem setupExecutableHook_quiet (env : Env) (fuel : Nat) :
    Quiet (setupExecutableHook env fuel) :=
  fun h s hf _ => setupExecutableHook_fast env fuel h s hf

theorem hookBody_zero (env : Env) (r1 r2 : HMODULE → State → Outcome) (h : HMODULE)
    (s : State) : hookBody env r1 0 h s = hookBody env r2 0 h s := by
  simp [hookBody, resolveGameRootDir, walkUp]

theorem setupExecutableHook_eq (env : Env) (fuel : Nat) :
    ∃ hook, Quiet hook ∧ ∀ h s, setupExecutableHook env fuel h s = hookBody env hook fuel h s := by
  cases fuel with
  | zero =>
    exact ⟨fun _ s => .ok () s, fun _ _ _ _ => rfl, fun h s => hookBody_zero env _ _ h s⟩
  | succ n => exact ⟨_, setupExecutableHook_quiet env n, fun _ _ => rfl⟩

theorem hookBody_run (env : Env) (hook : HMODULE → State → Outcome) (fuel : Nat) (h : HMODULE)
    (s : State) (root : Path) (g d : HMODULE)
    (hf : s.hookAlreadySetup = false) (hm : s.setupHookMutex = false)
    (hr : resolveGameRootDir env fuel = some root)
    (hg : env.GetModuleHandleA GAME_MODULE_NAME = some g)
    (hd : env.LoadLibraryW (parent_path (env.GetModuleFileNameW (some h)) ++ ["msdia140.dll"])
      = some d) :
    hookBody env hook fuel h s =
      match discoverLoaderMods env [] root (discoveryState env h root g d s) with
      | .ok discoveredMods s4 =>
        (match bootstrapLoaderMods env hook root discoveredMods
            (s4.addEvents [Event.log "Bootstrapping loader modules..."]) with
          | .ok _ s5 =>
            .ok () { s5.addEvents [Event.log "Successfully performed bootstrapping."] with
              setupHookMutex := false }
          | other => other)
      | .exited c s4 => .exited c s4
      | .deadlock s4 => .deadlock s4
      | .crash s4 => .crash s4
      | .timeout => .timeout := by
  have hs : ∀ s1 s2 : State, s1 = s2 →
      discoverLoaderMods env [] root s1 = discoverLoaderMods env [] root s2 :=
    fun _ _ e => e ▸ rfl
  simp only [hookBody, hf, hm, hr, hg, hd, Bool.false_eq_true, if_false, logLine_eq, emit_eq,
    addEvents_addEvents, List.cons_append, List.nil_append]
  rw [hs _ (discoveryState env h root g d s)
    (by simp [discoveryState, setupEvents, State.addEvents])]


theorem discoveryState_loader (env : Env) (h : HMODULE) (root : Path) (g d : HMODULE)
    (s : State) : (discoveryState env h root g d s).dllLoader ≠ none := by
  simp [discoveryState]

theorem stages_setupEvents (env : Env) (h : HMODULE) (root : Path) (g d : HMODULE) :
    stages (setupEvents env h root g d) =
      [Event.initializeLogging,
        Event.loadLibraryW (parent_path (env.GetModuleFileNameW (some h)) ++ ["msdia140.dll"]),
        Event.newSymbolResolver g d false, Event.newDllLoader ⟨g, d, false⟩] := by
  simp [setupEvents]

theorem invocations_setupEvents (env : Env) (h : HMODULE) (root : Path) (g d : HMODULE) :
    invocations (setupEvents env h root g d) = [] := by
  simp [setupEvents]

theorem hookBody_outcome (env : Env) (hook : HMODULE → State → Outcome) (hq : Quiet hook)
    (fuel : Nat) (h : HMODULE) (s : State)
    (hf : s.hookAlreadySetup = false) (hm : s.setupHookMutex = false) :
    (resolveGameRootDir env fuel = none ∧ hookBody env hook fuel h s = .timeout) ∨
    ∃ root evs s', resolveGameRootDir env fuel = some root ∧
      s'.hookAlreadySetup = true ∧ s'.events = s.events ++ evs ∧
      (∀ x ∈ invocations evs, x.2.2 = makeAccessors root) ∧
      ((invocations evs).map Prod.fst).Nodup ∧
      (hookBody env hook fuel h s = .exited 1 s' ∨
        (hookBody env hook fuel h s = .ok () s' ∧ s'.setupHookMutex = false ∧
          ∃ g d, s'.dllLoader = some ⟨⟨g, d, false⟩⟩ ∧
            stages evs = [Event.initializeLogging,
              Event.loadLibraryW (parent_path (env.GetModuleFileNameW (some h))
                ++ ["msdia140.dll"]),
              Event.newSymbolResolver g d false, Event.newDllLoader ⟨g, d, false⟩,
              Event.createDirectories (root ++ ["loaders"])])) := by
  cases hr : resolveGameRootDir env fuel with
  | none => exact Or.inl ⟨rfl, by simp [hookBody, hf, hm, hr]⟩
  | some root =>
    right
    cases hg : env.GetModuleHandleA GAME_MODULE_NAME with
    | none =>
      refine ⟨root, [Event.initializeLogging, Event.log "Setting up hooking",
          Event.log ("Game Root Directory: " ++ quoted (pathString root)),
          Event.log ("Bootstrapper Directory: " ++ quoted (pathString
            (parent_path (env.GetModuleFileNameW (some h))))),
          Event.log ("Failed to find primary game module with name: " ++ GAME_MODULE_NAME)],
        { hookAlreadySetup := true, setupHookMutex := true, dllLoader := s.dllLoader,
          events := s.events ++ _ }, rfl, rfl, rfl, ?_, ?_, Or.inl ?_⟩
      · simp
      · simp
      · simp [hookBody, hf, hm, hr, hg, State.addEvents]
    | some g =>
      cases hd : env.LoadLibraryW
          (parent_path (env.GetModuleFileNameW (some h)) ++ ["msdia140.dll"]) with
      | none =>
        refine ⟨root, [Event.initializeLogging, Event.log "Setting up hooking",
            Event.log ("Game Root Directory: " ++ quoted (pathString root)),
            Event.log ("Bootstrapper Directory: " ++ quoted (pathString
              (parent_path (env.GetModuleFileNameW (some h))))),
            Event.loadLibraryW (parent_path (env.GetModuleFileNameW (some h))
              ++ ["msdia140.dll"]),
            Event.log "Failed to load DIA SDK implementation DLL.",
            Event.log ("Expected to find it at: " ++ pathString
              (parent_path (env.GetModuleFileNameW (some h)) ++ ["msdia140.dll"])),
            Event.log "Make sure it is here and restart. Exiting now."],
          { hookAlreadySetup := true, setupHookMutex := true, dllLoader := s.dllLoader,
            events := s.events ++ _ }, rfl, rfl, rfl, ?_, ?_, Or.inl ?_⟩
        · simp
        · simp
        · simp [hookBody, hf, hm, hr, hg, hd, State.addEvents]
      | some d =>
        rw [hookBody_run env hook fuel h s root g d hf hm hr hg hd]
        obtain ⟨evs1, hi1, hs1, hcase⟩ := discoverLoop_any env (root ++ ["loaders"])
          (env.directory_iterator (root ++ ["loaders"])) []
          ((discoveryState env h root g d s).addEvents
            [Event.createDirectories (root ++ ["loaders"])])
          (by simpa using discoveryState_loader env h root g d s)
        simp only [discoverLoaderMods, emit_eq]
        rcases hcase with hcase | hcase
        · obtain ⟨evs2, hb, hs2, hi2⟩ := bootstrapLoaderMods_quiet env hook hq root
            (insertAll env (root ++ ["loaders"])
              (env.directory_iterator (root ++ ["loaders"])) [])
            ((((discoveryState env h root g d s).addEvents
              [Event.createDirectories (root ++ ["loaders"])]).addEvents evs1).addEvents
              [Event.log "Bootstrapping loader modules..."])
            (by simp [discoveryState]) (by simp [discoveryState]) (by simp [discoveryState])
          rw [hcase]
          simp only []
          rw [hb]
          simp only []
          refine ⟨root, setupEvents env h root g d ++
            (Event.createDirectories (root ++ ["loaders"]) :: evs1 ++
              (Event.log "Bootstrapping loader modules..." :: evs2 ++
                [Event.log "Successfully performed bootstrapping."])), _, rfl, ?_, ?_, ?_, ?_,
            Or.inr ⟨rfl, rfl, g, d, ?_, ?_⟩⟩
          · simp [discoveryState]
          · simp [discoveryState]
          · intro x hx
            simp only [invocations_append, invocations_setupEvents, invocations_cons, hi1, hi2,
              invocations_nil, List.nil_append, List.append_nil] at hx
            exact entryCalls_table env root _ x hx
          · simp only [invocations_append, invocations_setupEvents, invocations_cons, hi1, hi2,
              invocations_nil, List.nil_append, List.append_nil]
            exact List.Nodup.sublist (entryCalls_names_sublist env root _)
              (keySorted_keys_nodup _ (insertAll_sorted _ _ _ _ List.Pairwise.nil))
          · simp [discoveryState]
          · simp [stages_setupEvents, hs1, hs2]
        · rw [hcase]
          refine ⟨root, setupEvents env h root g d ++
            (Event.createDirectories (root ++ ["loaders"]) :: evs1), _, rfl, ?_, ?_, ?_, ?_,
            Or.inl rfl⟩
          · simp [discoveryState]
          · simp [discoveryState]
          · simp [invocations_setupEvents, hi1]
          · simp [invocations_setupEvents, hi1]

theorem setupExecutableHook_outcome (env : Env) (fuel : Nat) (h : HMODULE) (s : State)
    (hf : s.hookAlreadySetup = false) (hm : s.setupHookMutex = false) :
    (resolveGameRootDir env fuel = none ∧ setupExecutableHook env fuel h s = .timeout) ∨
    ∃ root evs s', resolveGameRootDir env fuel = some root ∧
      s'.hookAlreadySetup = true ∧ s'.events = s.events ++ evs ∧
      (∀ x ∈ invocations evs, x.2.2 = makeAccessors root) ∧
      ((invocations evs).map Prod.fst).Nodup ∧
      (setupExecutableHook env fuel h s = .exited 1 s' ∨
        (setupExecutableHook env fuel h s = .ok () s' ∧ s'.setupHookMutex = false ∧
          ∃ g d, s'.dllLoader = some ⟨⟨g, d, false⟩⟩ ∧
            stages evs = [Event.initializeLogging,
              Event.loadLibraryW (parent_path (env.GetModuleFileNameW (some h))
                ++ ["msdia140.dll"]),
              Event.newSymbolResolver g d false, Event.newDllLoader ⟨g, d, false⟩,
              Event.createDirectories (root ++ ["loaders"])])) := by
  obtain ⟨hook, hq, he⟩ := setupExecutableHook_eq env fuel
  rw [he]
  exact hookBody_outcome env hook hq fuel h s hf hm


theorem hookBody_congr (env : Env) (r1 r2 : HMODULE → State → Outcome) (hq1 : Quiet r1)
    (hq2 : Quiet r2) (fuel : Nat) (h : HMODULE) (s : State) :
    hookBody env r1 fuel h s = hookBody env r2 fuel h s := by
  cases hf : s.hookAlreadySetup with
  | true => rw [hookBody_fast _ _ _ _ _ hf, hookBody_fast _ _ _ _ _ hf]
  | false =>
    cases hm : s.setupHookMutex with
    | true => simp [hookBody, hf, hm]
    | false =>
      cases hr : resolveGameRootDir env fuel with
      | none => simp [hookBody, hf, hm, hr]
      | some root =>
        cases hg : env.GetModuleHandleA GAME_MODULE_NAME with
        | none => simp [hookBody, hf, hm, hr, hg]
        | some g =>
          cases hd : env.LoadLibraryW
              (parent_path (env.GetModuleFileNameW (some h)) ++ ["msdia140.dll"]) with
          | none => simp [hookBody, hf, hm, hr, hg, hd]
          | some d =>
            rw [hookBody_run env r1 fuel h s root g d hf hm hr hg hd,
              hookBody_run env r2 fuel h s root g d hf hm hr hg hd]
            obtain ⟨evs1, -, -, hcase⟩ := discoverLoop_any env (root ++ ["loaders"])
              (env.directory_iterator (root ++ ["loaders"])) []
              ((discoveryState env h root g d s).addEvents
                [Event.createDirectories (root ++ ["loaders"])])
              (by simpa using discoveryState_loader env h root g d s)
            simp only [discoverLoaderMods, emit_eq]
            rcases hcase with hcase | hcase
            · rw [hcase]
              simp only []
              rw [bootstrapLoaderMods_congr env r1 r2 hq1 hq2 root _ _
                (by simp [discoveryState]) (by simp [discoveryState])
                (by simp [discoveryState])]
            · rw [hcase]

theorem callHook_done (env : Env) (fuel : Nat) (h : HMODULE) (n : Nat) (s : State)
    (hf : s.hookAlreadySetup = true) : callHook env fuel h n s = .ok () s := by
  induction n with
  | zero => rfl
  | succ n ih => simp [callHook, setupExecutableHook_fast env fuel h s hf, ih]

theorem setupExecutableHook_ok_flag (env : Env) (fuel : Nat) (h : HMODULE) (s s1 : State)
    (hm : s.setupHookMutex = false)
    (hs : setupExecutableHook env fuel h s = .ok () s1) : s1.hookAlreadySetup = true := by
  cases hf : s.hookAlreadySetup with
  | true =>
    rw [setupExecutableHook_fast env fuel h s hf] at hs
    cases hs
    exact hf
  | false =>
    rcases setupExecutableHook_outcome env fuel h s hf hm with ⟨-, ht⟩ |
      ⟨root, evs, s', -, hfl, -, -, -, he | ⟨he, -⟩⟩
    · rw [ht] at hs; cases hs
    · rw [he] at hs; cases hs
    · rw [he] at hs; cases hs; exact hfl

theorem setupExecutableHook_returns (env : Env) (fuel : Nat) (h : HMODULE) (root : Path)
    (g d : HMODULE) (hr : resolveGameRootDir env fuel = some root)
    (hg : env.GetModuleHandleA GAME_MODULE_NAME = some g)
    (hd : env.LoadLibraryW (parent_path (env.GetModuleFileNameW (some h)) ++ ["msdia140.dll"])
      = some d)
    (hok : ∀ e ∈ env.directory_iterator (root ++ ["loaders"]), isCandidate e = true →
      env.LoadModule (root ++ ["loaders"] ++ [e.filename]) ≠ none) :
    ∃ s1, setupExecutableHook env fuel h State.initial = .ok () s1 := by
  obtain ⟨hook, hq, he⟩ := setupExecutableHook_eq env fuel
  rw [he, hookBody_run env hook fuel h State.initial root g d rfl rfl hr hg hd]
  obtain ⟨evs1, h1, -, -, -⟩ := discoverLoop_ok env (root ++ ["loaders"])
    (env.directory_iterator (root ++ ["loaders"])) []
    ((discoveryState env h root g d State.initial).addEvents
      [Event.createDirectories (root ++ ["loaders"])])
    (by simpa using discoveryState_loader env h root g d State.initial) hok
  obtain ⟨evs2, hb, -, -⟩ := bootstrapLoaderMods_quiet env hook hq root
    (insertAll env (root ++ ["loaders"]) (env.directory_iterator (root ++ ["loaders"])) [])
    ((((discoveryState env h root g d State.initial).addEvents
      [Event.createDirectories (root ++ ["loaders"])]).addEvents evs1).addEvents
      [Event.log "Bootstrapping loader modules..."])
    (by simp [discoveryState]) (by simp [discoveryState]) (by simp [discoveryState])
  simp only [discoverLoaderMods, emit_eq]
  rw [h1]
  simp only []
  rw [hb]
  exact ⟨_, rfl⟩

/-! ## The claims -/

/-- C1: for every `N ≥ 1`, `N` calls of `setupExecutableHook` in sequence from the initial
state end exactly as one call does; a call made once the flag is set returns at once and
leaves flag, mutex, loader pointer and record of outside calls as they were; when the first
call returns, the flag is set, the mutex is free, the loader is constructed, each stage of the
sequence was entered exactly once and no module was bootstrapped twice; and the first call
does return when the root is found, host module and symbol provider are present and every
candidate loads. -/
theorem setupExecutableHook_idempotent (env : Env) (fuel : Nat) (selfModuleHandle : HMODULE)
    (N : Nat) (hN : 1 ≤ N) :
    callHook env fuel selfModuleHandle N State.initial
        = setupExecutableHook env fuel selfModuleHandle State.initial ∧
      (∀ s, s.hookAlreadySetup = true →
        setupExecutableHook env fuel selfModuleHandle s = .ok () s) ∧
      (∀ s1, setupExecutableHook env fuel selfModuleHandle State.initial = .ok () s1 →
        callHook env fuel selfModuleHandle N State.initial = .ok () s1 ∧
        s1.hookAlreadySetup = true ∧ s1.setupHookMutex = false ∧
        ((invocations s1.events).map Prod.fst).Nodup ∧
        ∃ root g d, resolveGameRootDir env fuel = some root ∧
          s1.dllLoader = some ⟨⟨g, d, false⟩⟩ ∧
          stages s1.events = [Event.initializeLogging,
            Event.loadLibraryW (parent_path (env.GetModuleFileNameW (some selfModuleHandle))
              ++ ["msdia140.dll"]),
            Event.newSymbolResolver g d false, Event.newDllLoader ⟨g, d, false⟩,
            Event.createDirectories (root ++ ["loaders"])]) ∧
      (∀ root g d, resolveGameRootDir env fuel = some root →
        env.GetModuleHandleA GAME_MODULE_NAME = some g →
        env.LoadLibraryW (parent_path (env.GetModuleFileNameW (some selfModuleHandle))
          ++ ["msdia140.dll"]) = some d →
        (∀ e ∈ env.directory_iterator (root ++ ["loaders"]), isCandidate e = true →
          env.LoadModule (root ++ ["loaders"] ++ [e.filename]) ≠ none) →
        ∃ s1, callHook env fuel selfModuleHandle N State.initial = .ok () s1) := by
  have hfirst : callHook env fuel selfModuleHandle N State.initial
      = setupExecutableHook env fuel selfModuleHandle State.initial := by
    obtain ⟨n, rfl⟩ : ∃ n, N = n + 1 := ⟨N - 1, by omega⟩
    simp only [callHook]
    cases hs : setupExecutableHook env fuel selfModuleHandle State.initial with
    | ok v s1 =>
      exact callHook_done env fuel selfModuleHandle n s1
        (setupExecutableHook_ok_flag env fuel selfModuleHandle _ s1 rfl hs)
    | exited c s1 => rfl
    | deadlock s1 => rfl
    | crash s1 => rfl
    | timeout => rfl
  refine ⟨hfirst, fun s hf => setupExecutableHook_fast env fuel selfModuleHandle s hf, ?_,
    fun root g d hr hg hd hok => by
      rw [hfirst]
      exact setupExecutableHook_returns env fuel selfModuleHandle root g d hr hg hd hok⟩
  intro s1 hs
  refine ⟨hfirst.trans hs, ?_⟩
  rcases setupExecutableHook_outcome env fuel selfModuleHandle State.initial rfl rfl with
    ⟨-, ht⟩ | ⟨root, evs, s', hr, hfl, hev, -, hnd, he | ⟨he, hmx, g, d, hld, hst⟩⟩
  · rw [ht] at hs; cases hs
  · rw [he] at hs; cases hs
  · rw [he] at hs
    cases hs
    have hev' : s1.events = evs := by simpa [State.initial] using hev
    exact ⟨hfl, hmx, by rw [hev']; exact hnd, root, g, d, hr, hld, by rw [hev']; exact hst⟩

/-- C1, on the example installation with three calls. -/
theorem setupExecutableHook_idempotent_witness :
    1 ≤ 3 ∧
      callHook exampleEnv 10 7 3 State.initial = setupExecutableHook exampleEnv 10 7 State.initial ∧
      (setupExecutableHook exampleEnv 10 7 State.initial).state?.map State.hookAlreadySetup
        = some true :=
  ⟨by decide, (setupExecutableHook_idempotent exampleEnv 10 7 3 (by decide)).1, by decide⟩

theorem path_count (dir : Path) (names : List String) (n : String) :
    (names.map (fun x => dir ++ [x])).count (dir ++ [n]) = names.count n := by
  induction names with
  | nil => rfl
  | cons a t ih =>
    simp only [List.map_cons, List.count_cons, ih]
    congr 1
    by_cases h : a = n
    · simp [h]
    · have : ¬ (dir ++ [a] = dir ++ [n]) := by
        intro e
        exact h (by simpa using e)
      simp [h, this]

theorem candidate_count (l : List DirEntry) (hnd : (l.map DirEntry.filename).Nodup)
    (e : DirEntry) (he : e ∈ l) :
    ((l.filter isCandidate).map DirEntry.filename).count e.filename
      = if isCandidate e = true then 1 else 0 := by
  have hsub : ((l.filter isCandidate).map DirEntry.filename).Nodup :=
    List.Nodup.sublist ((List.filter_sublist l).map _) hnd
  have hinj : ∀ x ∈ l, x.filename = e.filename → x = e := by
    intro x hx hxe
    exact List.inj_on_of_nodup_map hnd hx he hxe
  by_cases hc : isCandidate e = true
  · rw [if_pos hc]
    exact List.count_eq_one_of_mem hsub
      (List.mem_map_of_mem _ (List.mem_filter.2 ⟨he, hc⟩))
  · rw [if_neg hc]
    refine List.count_eq_zero.2 ?_
    intro hmem
    obtain ⟨x, hx, hxe⟩ := List.mem_map.1 hmem
    obtain ⟨hxl, hxc⟩ := List.mem_filter.1 hx
    rw [hinj x hxl hxe] at hxc
    exact hc hxc

theorem insertAll_env (env1 env2 : Env) (h : env1.LoadModule = env2.LoadModule) (dir : Path)
    (l : List DirEntry) (reg : Registry) :
    insertAll env1 dir l reg = insertAll env2 dir l reg := by
  induction l generalizing reg with
  | nil => rfl
  | cons file rest ih => simp only [insertAll, h, ih]

/-- C2: when the names in the `loaders` directory are distinct and every candidate (regular
file with extension `.dll`) loads, `discoverLoaderMods` returns, calls `LoadModule` on the
candidates in directory order, hence once on each candidate and on no other entry, and the
registry holds exactly the candidates' names, one record each; listing the directory in any
other order gives the same registry and the same calls up to order. -/
theorem discoverLoaderMods_complete (env : Env) (rootGameDirectory : Path) (s : State)
    (hl : s.dllLoader ≠ none)
    (hnd : ((env.directory_iterator (rootGameDirectory ++ ["loaders"])).map
      DirEntry.filename).Nodup)
    (hok : ∀ e ∈ env.directory_iterator (rootGameDirectory ++ ["loaders"]),
      isCandidate e = true →
        env.LoadModule (rootGameDirectory ++ ["loaders"] ++ [e.filename]) ≠ none) :
    ∃ reg s' calls, discoverLoaderMods env [] rootGameDirectory s = .ok reg s' ∧
      loadCalls s'.events = loadCalls s.events ++ calls ∧
      calls = ((env.directory_iterator (rootGameDirectory ++ ["loaders"])).filter
        isCandidate).map (fun e => rootGameDirectory ++ ["loaders"] ++ [e.filename]) ∧
      (∀ e ∈ env.directory_iterator (rootGameDirectory ++ ["loaders"]),
        calls.count (rootGameDirectory ++ ["loaders"] ++ [e.filename])
          = if isCandidate e = true then 1 else 0) ∧
      (reg.map Prod.fst).Perm
        (((env.directory_iterator (rootGameDirectory ++ ["loaders"])).filter
          isCandidate).map DirEntry.filename) ∧
      reg.length = ((env.directory_iterator (rootGameDirectory ++ ["loaders"])).filter
        isCandidate).length ∧
      ∀ files, files.Perm (env.directory_iterator (rootGameDirectory ++ ["loaders"])) →
        ∃ s2, discoverLoaderMods { env with directory_iterator := fun _ => files } []
            rootGameDirectory s = .ok reg s2 ∧
          (loadCalls s2.events).Perm (loadCalls s'.events) := by
  obtain ⟨evs, h1, h2, -, -⟩ := discoverLoop_ok env (rootGameDirectory ++ ["loaders"])
    (env.directory_iterator (rootGameDirectory ++ ["loaders"])) []
    (s.addEvents [Event.createDirectories (rootGameDirectory ++ ["loaders"])])
    (by simpa using hl) hok
  have hkeys := insertAll_keys_perm env (rootGameDirectory ++ ["loaders"])
    (env.directory_iterator (rootGameDirectory ++ ["loaders"])) hnd hok
  refine ⟨_, _, _, by simpa [discoverLoaderMods] using h1, ?_, rfl, ?_, hkeys, ?_, ?_⟩
  · simp [h2]
  · intro e he
    have := path_count (rootGameDirectory ++ ["loaders"])
      (((env.directory_iterator (rootGameDirectory ++ ["loaders"])).filter
        isCandidate).map DirEntry.filename) e.filename
    rw [List.map_map] at this
    rw [← candidate_count _ hnd e he, ← this]
    rfl
  · have := hkeys.length_eq
    simpa using this
  · intro files hp
    obtain ⟨evs2, h3, h4, -, -⟩ := discoverLoop_ok
      { env with directory_iterator := fun _ => files } (rootGameDirectory ++ ["loaders"])
      files [] (s.addEvents [Event.createDirectories (rootGameDirectory ++ ["loaders"])])
      (by simpa using hl) (fun e he => hok e (hp.mem_iff.1 he))
    refine ⟨(s.addEvents [Event.createDirectories
      (rootGameDirectory ++ ["loaders"])]).addEvents evs2, ?_, ?_⟩
    · rw [← insertAll_perm env _ _ _ hp hnd,
        ← insertAll_env { env with directory_iterator := fun _ => files } env rfl]
      simpa [discoverLoaderMods] using h3
    · simp only [addEvents_events, loadCalls_append, loadCalls_cons, loadCalls_nil, h2, h4,
        List.append_nil]
      exact List.Perm.append_left _ ((hp.filter _).map _)

/-- C2, on the example installation: `b.dll` and `a.dll` are loaded once each, `x.txt` is not,
and the registry holds `a.dll` and `b.dll`. -/
theorem discoverLoaderMods_complete_witness :
    bootstrappingState.dllLoader ≠ none ∧
      ((exampleEnv.directory_iterator (["Sat"] ++ ["loaders"])).map DirEntry.filename).Nodup ∧
      ∃ reg s' calls, discoverLoaderMods exampleEnv [] ["Sat"] bootstrappingState = .ok reg s' ∧
        calls = [["Sat", "loaders", "b.dll"], ["Sat", "loaders", "a.dll"]] ∧
        reg.length = 2 := by
  have hl : bootstrappingState.dllLoader ≠ none := by decide
  have hnd : ((exampleEnv.directory_iterator (["Sat"] ++ ["loaders"])).map
      DirEntry.filename).Nodup := by decide
  obtain ⟨reg, s', calls, h1, -, h3, -, -, h6, -⟩ :=
    discoverLoaderMods_complete exampleEnv ["Sat"] bootstrappingState hl hnd (by decide)
  exact ⟨hl, hnd, reg, s', calls, h1, by rw [h3]; decide, by rw [h6]; decide⟩

/-- C4 fails as stated: on the example installation the directory yields `b.dll` before
`a.dll`, both load in that order and both export `BootstrapModule`, yet the entry point of
`a.dll` is called before that of `b.dll`. -/
theorem bootstrap_order_counterexample :
    (∀ e ∈ exampleEnv.directory_iterator ["Sat", "loaders"], isCandidate e = true →
        ((exampleEnv.LoadModule (["Sat", "loaders"] ++ [e.filename])).bind fun m =>
          exampleEnv.GetProcAddress m "BootstrapModule").isSome = true) ∧
      ((exampleEnv.directory_iterator ["Sat", "loaders"]).filter isCandidate).map
        DirEntry.filename = ["b.dll", "a.dll"] ∧
      (loadCalls (setupExecutableHook exampleEnv 10 7 State.initial).events).take 2
        = [["Sat", "loaders", "b.dll"], ["Sat", "loaders", "a.dll"]] ∧
      (invocations (setupExecutableHook exampleEnv 10 7 State.initial).events).map Prod.fst
        = ["a.dll", "b.dll"] ∧
      (invocations (setupExecutableHook exampleEnv 10 7 State.initial).events).map Prod.fst
        ≠ ((exampleEnv.directory_iterator ["Sat", "loaders"]).filter isCandidate).map
          DirEntry.filename := by
  decide

/-- C4 as amended: when the root is found, host module and symbol provider are present, the
names in the `loaders` directory are distinct, every candidate loads and every loaded module
exports `BootstrapModule`, the hook returns and the entry points are called once per
candidate, in ascending order of the file names (the key order of the registry), whatever the
order of the directory. -/
theorem bootstrap_order_sorted (env : Env) (fuel : Nat) (selfModuleHandle : HMODULE)
    (root : Path) (g d : HMODULE)
    (hr : resolveGameRootDir env fuel = some root)
    (hg : env.GetModuleHandleA GAME_MODULE_NAME = some g)
    (hd : env.LoadLibraryW (parent_path (env.GetModuleFileNameW (some selfModuleHandle))
      ++ ["msdia140.dll"]) = some d)
    (hnd : ((env.directory_iterator (root ++ ["loaders"])).map DirEntry.filename).Nodup)
    (hok : ∀ e ∈ env.directory_iterator (root ++ ["loaders"]), isCandidate e = true →
      env.LoadModule (root ++ ["loaders"] ++ [e.filename]) ≠ none)
    (hexp : ∀ e ∈ env.directory_iterator (root ++ ["loaders"]), isCandidate e = true →
      ∀ m, env.LoadModule (root ++ ["loaders"] ++ [e.filename]) = some m →
        env.GetProcAddress m "BootstrapModule" ≠ none) :
    ∃ s', setupExecutableHook env fuel selfModuleHandle State.initial = .ok () s' ∧
      ((invocations s'.events).map Prod.fst).Perm
        (((env.directory_iterator (root ++ ["loaders"])).filter isCandidate).map
          DirEntry.filename) ∧
      ((invocations s'.events).map Prod.fst).Pairwise (fun a b => stringLess a b = true) := by
  obtain ⟨hook, hq, he⟩ := setupExecutableHook_eq env fuel
  rw [he, hookBody_run env hook fuel selfModuleHandle State.initial root g d rfl rfl hr hg hd]
  obtain ⟨evs1, h1, -, hi1, -⟩ := discoverLoop_ok env (root ++ ["loaders"])
    (env.directory_iterator (root ++ ["loaders"])) []
    ((discoveryState env selfModuleHandle root g d State.initial).addEvents
      [Event.createDirectories (root ++ ["loaders"])])
    (by simpa using discoveryState_loader env selfModuleHandle root g d State.initial) hok
  obtain ⟨evs2, hb, -, hi2⟩ := bootstrapLoaderMods_quiet env hook hq root
    (insertAll env (root ++ ["loaders"]) (env.directory_iterator (root ++ ["loaders"])) [])
    ((((discoveryState env selfModuleHandle root g d State.initial).addEvents
      [Event.createDirectories (root ++ ["loaders"])]).addEvents evs1).addEvents
      [Event.log "Bootstrapping loader modules..."])
    (by simp [discoveryState]) (by simp [discoveryState]) (by simp [discoveryState])
  have hsorted := insertAll_sorted env (root ++ ["loaders"])
    (env.directory_iterator (root ++ ["loaders"])) [] List.Pairwise.nil
  have hall : ∀ m ∈ insertAll env (root ++ ["loaders"])
      (env.directory_iterator (root ++ ["loaders"])) [],
      env.GetProcAddress m.2 "BootstrapModule" ≠ none := by
    intro m hm
    rcases (insertAll_mem_iff env _ _ [] List.Pairwise.nil hnd m).1 hm with h | ⟨-, e, he, hc, -, hload⟩
    · cases h
    · exact hexp e he hc m.2 hload
  have hnames := entryCalls_names_all env root _ hall
  simp only [discoverLoaderMods, emit_eq]
  rw [h1]
  simp only []
  rw [hb]
  refine ⟨_, rfl, ?_, ?_⟩
  · simp only [addEvents_events, discoveryState, State.initial, invocations_append,
      invocations_setupEvents, invocations_cons, invocations_nil, hi1, hi2, List.nil_append,
      List.append_nil, hnames]
    exact insertAll_keys_perm env _ _ hnd hok
  · simp only [addEvents_events, discoveryState, State.initial, invocations_append,
      invocations_setupEvents, invocations_cons, invocations_nil, hi1, hi2, List.nil_append,
      List.append_nil, hnames]
    refine List.pairwise_map.2 (List.Pairwise.imp ?_ hsorted)
    intro a b hab
    exact (stringLess_iff _ _).2 hab

/-- C4 as amended, on the example installation: `a.dll` is bootstrapped before `b.dll`. -/
theorem bootstrap_order_sorted_witness :
    resolveGameRootDir exampleEnv 10 = some ["Sat"] ∧
      ∃ s', setupExecutableHook exampleEnv 10 7 State.initial = .ok () s' ∧
        ((invocations s'.events).map Prod.fst).Pairwise (fun a b => stringLess a b = true) := by
  have hr : resolveGameRootDir exampleEnv 10 = some ["Sat"] := by decide
  obtain ⟨s', h1, -, h3⟩ := bootstrap_order_sorted exampleEnv 10 7 ["Sat"] 1 5 hr
    (by decide) (by decide) (by decide) (by decide) (by decide)
  exact ⟨hr, s', h1, h3⟩

/-- C5: when the root is found, host module and symbol provider are present and some candidate
of the `loaders` directory does not load, the candidates split at the first that fails; the
hook ends the process with status 1 after calling `LoadModule` on the candidates up to and
including that one and on none after it, and no entry point is called.  The same holds of
`discoverLoaderMods` from any state with a loader. -/
theorem discovery_failure_fatal (env : Env) (fuel : Nat) (selfModuleHandle : HMODULE)
    (root : Path) (g d : HMODULE)
    (hr : resolveGameRootDir env fuel = some root)
    (hg : env.GetModuleHandleA GAME_MODULE_NAME = some g)
    (hd : env.LoadLibraryW (parent_path (env.GetModuleFileNameW (some selfModuleHandle))
      ++ ["msdia140.dll"]) = some d)
    (hfail : ∃ e ∈ env.directory_iterator (root ++ ["loaders"]), isCandidate e = true ∧
      env.LoadModule (root ++ ["loaders"] ++ [e.filename]) = none) :
    ∃ pre bad post, (env.directory_iterator (root ++ ["loaders"])).filter isCandidate
        = pre ++ bad :: post ∧
      (∀ e ∈ pre, env.LoadModule (root ++ ["loaders"] ++ [e.filename]) ≠ none) ∧
      env.LoadModule (root ++ ["loaders"] ++ [bad.filename]) = none ∧
      (∃ s', setupExecutableHook env fuel selfModuleHandle State.initial = .exited 1 s' ∧
        loadCalls s'.events
          = (pre ++ [bad]).map (fun e => root ++ ["loaders"] ++ [e.filename]) ∧
        invocations s'.events = []) ∧
      ∀ (reg : Registry) (s : State), s.dllLoader ≠ none →
        ∃ s', discoverLoaderMods env reg root s = .exited 1 s' ∧
          loadCalls s'.events = loadCalls s.events
            ++ (pre ++ [bad]).map (fun e => root ++ ["loaders"] ++ [e.filename]) ∧
          invocations s'.events = invocations s.events := by
  obtain ⟨pre, bad, post, h1, h2, h3⟩ := candidates_split env (root ++ ["loaders"]) _ hfail
  refine ⟨pre, bad, post, h1, h2, h3, ?_, ?_⟩
  · obtain ⟨hook, hq, he⟩ := setupExecutableHook_eq env fuel
    rw [he, hookBody_run env hook fuel selfModuleHandle State.initial root g d rfl rfl hr hg hd]
    obtain ⟨evs, h4, h5, h6, -⟩ := discoverLoop_fail env (root ++ ["loaders"])
      (env.directory_iterator (root ++ ["loaders"])) []
      ((discoveryState env selfModuleHandle root g d State.initial).addEvents
        [Event.createDirectories (root ++ ["loaders"])])
      (by simpa using discoveryState_loader env selfModuleHandle root g d State.initial)
      pre post bad h1 h2 h3
    simp only [discoverLoaderMods, emit_eq]
    rw [h4]
    refine ⟨_, rfl, ?_, ?_⟩
    · simp [discoveryState, State.initial, setupEvents, h5]
    · simp [discoveryState, State.initial, setupEvents, h6]
  · intro reg s hl
    obtain ⟨evs, h4, h5, h6, -⟩ := discoverLoop_fail env (root ++ ["loaders"])
      (env.directory_iterator (root ++ ["loaders"])) reg
      (s.addEvents [Event.createDirectories (root ++ ["loaders"])])
      (by simpa using hl) pre post bad h1 h2 h3
    refine ⟨_, by simpa [discoverLoaderMods] using h4, ?_, ?_⟩
    · simp [h5]
    · simp [h6]

/-- C5, on an installation whose `loaders` directory yields `a.dll`, `bad.dll`, `c.dll` with
`bad.dll` failing to load. -/
theorem discovery_failure_fatal_witness :
    resolveGameRootDir failingLoadEnv 10 = some ["Sat"] ∧
      ∃ s', setupExecutableHook failingLoadEnv 10 7 State.initial = .exited 1 s' ∧
        invocations s'.events = [] := by
  have hr : resolveGameRootDir failingLoadEnv 10 = some ["Sat"] := by decide
  obtain ⟨pre, bad, post, -, -, -, ⟨s', h1, -, h3⟩, -⟩ :=
    discovery_failure_fatal failingLoadEnv 10 7 ["Sat"] 1 5 hr (by decide) (by decide)
      ⟨⟨"bad.dll", true⟩, by decide, by decide, by decide⟩
  exact ⟨hr, s', h1, h3⟩

/-- C6 fails on the code: with the host image at `/Games/bin/FactoryGame-Win64-Shipping.exe`
and nothing named `FactoryGame` on the disk, the loop of `resolveGameRootDir` is still running
after any number of steps: it reaches the root, whose parent is the root, and goes on testing
it. -/
theorem resolveGameRootDir_no_marker_never_returns :
    (∀ i, noMarkerEnv.fsExists (parent_path^[i]
        (noMarkerEnv.GetModuleFileNameW (noMarkerEnv.GetModuleHandleA GAME_MODULE_NAME))
        ++ [gameFolderName]) = false) ∧
      parent_path [] = [] ∧
      ∀ fuel, resolveGameRootDir noMarkerEnv fuel = none :=
  ⟨fun _ => rfl, rfl, fun fuel => walkUp_never noMarkerEnv _ (fun _ => rfl) fuel⟩

/-- C7: the marker is `FactoryGame`; when the directory `d` parent steps above the host image
path contains the marker and none of the paths below it on the way does, the loop returns that
directory as soon as it is allowed `d + 1` tests of its condition (`d` steps upward), and is
still running after `d` tests or fewer. -/
theorem resolveGameRootDir_nearest (env : Env) (d : Nat)
    (hd : env.fsExists (parent_path^[d]
      (env.GetModuleFileNameW (env.GetModuleHandleA GAME_MODULE_NAME)) ++ [gameFolderName])
      = true)
    (hmin : ∀ i < d, env.fsExists (parent_path^[i]
      (env.GetModuleFileNameW (env.GetModuleHandleA GAME_MODULE_NAME)) ++ [gameFolderName])
      = false) :
    gameFolderName = "FactoryGame" ∧
      (∀ fuel, d < fuel → resolveGameRootDir env fuel = some (parent_path^[d]
        (env.GetModuleFileNameW (env.GetModuleHandleA GAME_MODULE_NAME)))) ∧
      (∀ fuel, fuel ≤ d → resolveGameRootDir env fuel = none) :=
  ⟨by decide, fun fuel hf => walkUp_found env d _ hd hmin fuel hf,
    fun fuel hf => walkUp_short env d _ hmin fuel hf⟩

/-- C7, on the example installation: the root `/Sat` lies four steps above the host image. -/
theorem resolveGameRootDir_nearest_witness :
    resolveGameRootDir exampleEnv 5 = some ["Sat"] ∧ resolveGameRootDir exampleEnv 4 = none :=
  have h := resolveGameRootDir_nearest exampleEnv 4 (by decide) (by decide)
  ⟨h.2.1 5 (by decide), h.2.2 4 (by decide)⟩

/-- C3 fails on the code: with `a.dll` (no `BootstrapModule`) and `b.dll` (exporting it) in
the registry, `bootstrapLoaderMods` logs the warning for `a.dll` and returns; the entry point
of `b.dll` is not called.  The same happens in the whole hook. -/
theorem bootstrapLoaderMods_stops_at_missing_entry :
    exportsBootstrap missingEntryEnv ("b.dll", 2) = true ∧
      bootstrapLoaderMods missingEntryEnv (setupExecutableHook missingEntryEnv 10) ["Sat"]
          [("a.dll", 1), ("b.dll", 2)] bootstrappingState
        = .ok () (bootstrappingState.addEvents
          [Event.log "[WARNING]: BootstrapModule() not found in loader module a.dll!"]) ∧
      loadCalls (setupExecutableHook missingEntryEnv 10 7 State.initial).events
        = [["Sat", "loaders", "a.dll"], ["Sat", "loaders", "b.dll"]] ∧
      invocations (setupExecutableHook missingEntryEnv 10 7 State.initial).events = [] := by
  decide

/-- C8 fails on the code: in a process where the host module is not resident and nothing on
the disk above the executable is named `FactoryGame`, the first call of the hook neither logs
the failure nor exits: it is still inside `resolveGameRootDir`, which runs before the test of
the module handle, after any number of steps. -/
theorem setupExecutableHook_no_host_never_exits :
    noHostEnv.GetModuleHandleA GAME_MODULE_NAME = none ∧
      ∀ fuel, setupExecutableHook noHostEnv fuel 7 State.initial = .timeout := by
  refine ⟨rfl, fun fuel => ?_⟩
  rcases setupExecutableHook_outcome noHostEnv fuel 7 State.initial rfl rfl with
    ⟨-, ht⟩ | ⟨root, evs, s', hr, -⟩
  · exact ht
  · have : resolveGameRootDir noHostEnv fuel = none :=
      walkUp_never noHostEnv _ (fun _ => rfl) fuel
    rw [this] at hr
    cases hr

/-- C9: in every call of the hook from the initial state that ends, each entry point called
received the table whose fields are, in order, the root returned by `resolveGameRootDir`,
`EXPORTS_LoadModule`, `EXPORTS_GetModuleProcAddress`, `EXPORTS_IsLoaderModuleLoaded`,
`EXPORTS_ResolveModuleSymbol`, the version `2.0.4` (which is `bootstrapperVersion`) and
`EXPORTS_FlushDebugSymbols`; any two entry points received equal tables. -/
theorem capability_table (env : Env) (fuel : Nat) (selfModuleHandle : HMODULE) (s' : State)
    (hs : (setupExecutableHook env fuel selfModuleHandle State.initial).state? = some s') :
    bootstrapperVersion = "2.0.4" ∧
      (∀ x ∈ invocations s'.events, ∃ root, resolveGameRootDir env fuel = some root ∧
        x.2.2 = ⟨root, .EXPORTS_LoadModule, .EXPORTS_GetModuleProcAddress,
          .EXPORTS_IsLoaderModuleLoaded, .EXPORTS_ResolveModuleSymbol, bootstrapperVersion,
          .EXPORTS_FlushDebugSymbols⟩) ∧
      ∀ x ∈ invocations s'.events, ∀ y ∈ invocations s'.events, x.2.2 = y.2.2 := by
  have key : ∃ root, resolveGameRootDir env fuel = some root ∧
      ∀ x ∈ invocations s'.events, x.2.2 = makeAccessors root := by
    rcases setupExecutableHook_outcome env fuel selfModuleHandle State.initial rfl rfl with
      ⟨-, ht⟩ | ⟨root, evs, s1, hr, -, hev, htab, -, he | ⟨he, -⟩⟩
    · rw [ht] at hs; cases hs
    · rw [he] at hs
      cases hs
      have hev' : s'.events = evs := by simpa [State.initial] using hev
      exact ⟨root, hr, by rw [hev']; exact htab⟩
    · rw [he] at hs
      cases hs
      have hev' : s'.events = evs := by simpa [State.initial] using hev
      exact ⟨root, hr, by rw [hev']; exact htab⟩
  obtain ⟨root, hr, htab⟩ := key
  refine ⟨rfl, fun x hx => ⟨root, hr, htab x hx⟩, fun x hx y hy => ?_⟩
  rw [htab x hx, htab y hy]

/-- C9, on the example installation: both modules are bootstrapped with the table for `/Sat`. -/
theorem capability_table_witness :
    (invocations (setupExecutableHook exampleEnv 10 7 State.initial).events).length = 2 ∧
      ∀ x ∈ invocations (setupExecutableHook exampleEnv 10 7 State.initial).events,
        ∃ root, resolveGameRootDir exampleEnv 10 = some root ∧
          x.2.2 = ⟨root, .EXPORTS_LoadModule, .EXPORTS_GetModuleProcAddress,
            .EXPORTS_IsLoaderModuleLoaded, .EXPORTS_ResolveModuleSymbol, bootstrapperVersion,
            .EXPORTS_FlushDebugSymbols⟩ :=
  ⟨by decide,
    (capability_table exampleEnv 10 7
      ((setupExecutableHook exampleEnv 10 7 State.initial).state?.getD State.initial)
      (by decide)).2.1⟩

/-- C10: the flag never goes back from set to clear, and whenever a call that ended has made
an outside call the flag is set; a call made while the flag is set returns at once with the
state as it was, also while the mutex is held, where a call with the flag clear would block on
the mutex; and the body of the hook calls back into the hook only in states where the flag is
set and the mutex is held, so its outcome is the same for every hook that returns at once in
those states, the exported hook among them. -/
theorem setup_flag_reentrant (env : Env) (fuel : Nat) (selfModuleHandle : HMODULE) :
    (∀ s s', (setupExecutableHook env fuel selfModuleHandle s).state? = some s' →
      (s.hookAlreadySetup = true → s'.hookAlreadySetup = true) ∧
      (s'.events ≠ s.events → s'.hookAlreadySetup = true)) ∧
    (∀ s, s.hookAlreadySetup = true →
      setupExecutableHook env fuel selfModuleHandle s = .ok () s) ∧
    (∀ s, s.hookAlreadySetup = false → s.setupHookMutex = true →
      setupExecutableHook env fuel selfModuleHandle s = .deadlock s) ∧
    (∀ hook, Quiet hook → ∀ s, hookBody env hook fuel selfModuleHandle s
      = hookBody env (fun _ s1 => .ok () s1) fuel selfModuleHandle s) ∧
    (∀ s, setupExecutableHook env fuel selfModuleHandle s
      = hookBody env (fun _ s1 => .ok () s1) fuel selfModuleHandle s) := by
  have hnoop : Quiet (fun (_ : HMODULE) (s1 : State) => (Result.ok () s1 : Outcome)) :=
    fun _ _ _ _ => rfl
  have hdead : ∀ s, s.hookAlreadySetup = false → s.setupHookMutex = true →
      setupExecutableHook env fuel selfModuleHandle s = .deadlock s := by
    intro s hf hm
    obtain ⟨hook, -, he⟩ := setupExecutableHook_eq env fuel
    rw [he]
    simp [hookBody, hf, hm]
  refine ⟨?_, fun s hf => setupExecutableHook_fast env fuel selfModuleHandle s hf, hdead,
    fun hook hq s => hookBody_congr env hook _ hq hnoop fuel selfModuleHandle s, ?_⟩
  · intro s s' hs
    cases hf : s.hookAlreadySetup with
    | true =>
      rw [setupExecutableHook_fast env fuel selfModuleHandle s hf] at hs
      simp only [Result.state?, Option.some.injEq] at hs
      subst hs
      exact ⟨fun _ => hf, fun h => absurd rfl h⟩
    | false =>
      cases hm : s.setupHookMutex with
      | true =>
        rw [hdead s hf hm] at hs
        simp only [Result.state?, Option.some.injEq] at hs
        subst hs
        exact ⟨fun h => by simp at h, fun h => absurd rfl h⟩
      | false =>
        rcases setupExecutableHook_outcome env fuel selfModuleHandle s hf hm with
          ⟨-, ht⟩ | ⟨root, evs, s1, -, hfl, -, -, -, he | ⟨he, -⟩⟩
        · rw [ht] at hs
          simp [Result.state?] at hs
        · rw [he] at hs
          simp only [Result.state?, Option.some.injEq] at hs
          subst hs
          exact ⟨fun _ => hfl, fun _ => hfl⟩
        · rw [he] at hs
          simp only [Result.state?, Option.some.injEq] at hs
          subst hs
          exact ⟨fun _ => hfl, fun _ => hfl⟩
  · intro s
    obtain ⟨hook, hq, he⟩ := setupExecutableHook_eq env fuel
    rw [he]
    exact hookBody_congr env hook _ hq hnoop fuel selfModuleHandle s

/-- C10, on the example installation, whose module `b.dll` calls the hook from its entry
point: in the state of that call, flag set and mutex held, the hook returns at once; and the
whole first call ends as it does when such calls are replaced by immediate returns. -/
theorem setup_flag_reentrant_witness :
    bootstrappingState.hookAlreadySetup = true ∧ bootstrappingState.setupHookMutex = true ∧
      setupExecutableHook exampleEnv 10 7 bootstrappingState = .ok () bootstrappingState ∧
      hookBody exampleEnv (setupExecutableHook exampleEnv 9) 10 7 State.initial
        = hookBody exampleEnv (fun _ s1 => .ok () s1) 10 7 State.initial ∧
      ModAction.callSetupExecutableHook 7 ∈ exampleEnv.code 110 (makeAccessors ["Sat"]) :=
  ⟨rfl, rfl, (setup_flag_reentrant exampleEnv 10 7).2.1 bootstrappingState rfl,
    (setup_flag_reentrant exampleEnv 10 7).2.2.2.1 (setupExecutableHook exampleEnv 9)
      (setupExecutableHook_quiet exampleEnv 9) State.initial,
    by decide⟩

end Bootstrapper
